import Mathlib

/-! GitHub provider of terraformer: credential resolution, configuration emission,
service dispatch.

A shallow embedding of `providers/github/github_provider.go`.

* Go strings are embedded as Lean `String`s. The only byte-level operations the
  source performs (`strconv.ParseInt` in base 10 and `strings.Replace` of the
  two-character sequence backslash + `n`) look at ASCII characters only, so they
  agree on characters and on UTF-8 bytes.
* `int64` values are embedded as `Int`; the only producer is `ParseInt`, whose
  64-bit range check is modelled explicitly.
* The pointer receiver `p *GithubProvider` is embedded by state passing: a method
  that assigns fields returns the new facade together with its outcome, so the
  fields written before an early `return err` stay written.
* The process environment is a lookup `String → Option String`.
-/

namespace Github

/-! ## Values of the surrounding libraries -/

/-- The part of `cty.Value` that `GetConfig` builds: strings, integers, lists and
objects. An object lists its attributes in the order the source writes them. -/
inductive CtyValue where
  | StringVal (s : String)
  | NumberIntVal (n : Int)
  | ListVal (l : List CtyValue)
  | ObjectVal (attrs : List (String × CtyValue))

/-- The attribute names of an object value (empty for a value that is no object). -/
def CtyValue.keys : CtyValue → List String
  | .ObjectVal attrs => attrs.map Prod.fst
  | _ => []

/-- A value of Go's `interface{}` as stored in the args bag: a string or an `int64`. -/
inductive ArgValue where
  | str (s : String)
  | int (n : Int)
  deriving DecidableEq, Repr

/-- The concrete generator types of the registry, one per service name. -/
inductive Generator where
  | MembersGenerator
  | OrganizationGenerator
  | OrganizationBlockGenerator
  | OrganizationProjectGenerator
  | OrganizationWebhooksGenerator
  | RepositoriesGenerator
  | TeamsGenerator
  | UserSSHKeyGenerator
  deriving DecidableEq, Repr

/-- The state of a generator handle: its concrete type and the fields of the
embedded `terraformutils.Service` that the four setters write. -/
structure ServiceGenerator where
  variant : Generator
  Name : String
  Verbose : Bool
  ProviderName : String
  Args : List (String × ArgValue)
  deriving DecidableEq, Repr

/-- The zero value `&T{}` of a generator type. -/
def Generator.new (g : Generator) : ServiceGenerator :=
  { variant := g, Name := "", Verbose := false, ProviderName := "", Args := [] }

/-- Modelled from the spec: `SetName` of `terraformutils.Service` (not in this
file of the repository) injects the name into the handle. -/
def ServiceGenerator.SetName (s : ServiceGenerator) (name : String) : ServiceGenerator :=
  { s with Name := name }

/-- Modelled from the spec: `SetVerbose` of `terraformutils.Service` injects the
verbose flag into the handle. -/
def ServiceGenerator.SetVerbose (s : ServiceGenerator) (verbose : Bool) : ServiceGenerator :=
  { s with Verbose := verbose }

/-- Modelled from the spec: `SetProviderName` of `terraformutils.Service` injects
the provider name into the handle. -/
def ServiceGenerator.SetProviderName (s : ServiceGenerator) (providerName : String) :
    ServiceGenerator :=
  { s with ProviderName := providerName }

/-- Modelled from the spec: `SetArgs` of `terraformutils.Service` injects the
shared argument bag into the handle. -/
def ServiceGenerator.SetArgs (s : ServiceGenerator) (args : List (String × ArgValue)) :
    ServiceGenerator :=
  { s with Args := args }

/-! ## The facade -/

/-- The struct `GithubProvider`. `Service` is the field of the embedded
`terraformutils.Provider`; `none` is the nil interface value. -/
structure GithubProvider where
  Service : Option ServiceGenerator
  owner : String
  token : String
  baseURL : String
  appID : Int
  installationID : Int
  pem : String
  deriving DecidableEq, Repr

/-- The zero value of `GithubProvider`, a freshly constructed facade. -/
def GithubProvider.fresh : GithubProvider :=
  { Service := none, owner := "", token := "", baseURL := "",
    appID := 0, installationID := 0, pem := "" }

/-- Go method `GetConfig`. -/
def GetConfig (p : GithubProvider) : CtyValue :=
  if p.appID ≠ 0 ∧ p.installationID ≠ 0 ∧ p.pem ≠ "" then
    .ObjectVal [
      ("owner", .StringVal p.owner),
      ("app_auth", .ListVal [
        .ObjectVal [
          ("id", .NumberIntVal p.appID),
          ("installation_id", .NumberIntVal p.installationID),
          ("pem_file", .StringVal p.pem)]])]
  else
    .ObjectVal [
      ("owner", .StringVal p.owner),
      ("token", .StringVal p.token),
      ("base_url", .StringVal p.baseURL)]

/-- Go method `GetResourceConnections`: the empty two-level mapping. -/
def GetResourceConnections (_p : GithubProvider) : List (String × List (String × List String)) :=
  []

/-- The nested mapping returned by `GetProviderData`. -/
inductive DataValue where
  | str (s : String)
  | map (m : List (String × DataValue))

/-- Go method `GetProviderData`. -/
def GetProviderData (p : GithubProvider) (_arg : List String) : List (String × DataValue) :=
  [("provider", .map [("github", .map [("owner", .str p.owner)])])]

/-- Go method `GetName`. -/
def GetName (_p : GithubProvider) : String := "github"

/-- Go method `GetSupportedService`: the registry, as the list of its entries. -/
def GetSupportedService (_p : GithubProvider) : List (String × ServiceGenerator) :=
  [ ("members", Generator.new .MembersGenerator),
    ("organization", Generator.new .OrganizationGenerator),
    ("organization_blocks", Generator.new .OrganizationBlockGenerator),
    ("organization_projects", Generator.new .OrganizationProjectGenerator),
    ("organization_webhooks", Generator.new .OrganizationWebhooksGenerator),
    ("repositories", Generator.new .RepositoriesGenerator),
    ("teams", Generator.new .TeamsGenerator),
    ("user_ssh_keys", Generator.new .UserSSHKeyGenerator) ]

/-! ## Library functions called by `Init` -/

/-- The process environment: the value of a variable, `none` when it is unset. -/
abbrev Env := String → Option String

/-- Go `os.LookupEnv`: the value and whether the variable is set. -/
def LookupEnv (env : Env) (key : String) : Option String := env key

/-- Go `os.Getenv`: the value, or the empty string when the variable is unset. -/
def Getenv (env : Env) (key : String) : String :=
  match env key with
  | some v => v
  | none => ""

/-- The two sentinel errors of `strconv`. -/
inductive NumErrKind where
  | ErrSyntax
  | ErrRange
  deriving DecidableEq, Repr

/-- Go `strconv.NumError`. -/
structure NumError where
  Func : String
  Num : String
  Err : NumErrKind
  deriving DecidableEq, Repr

/-- Go `strconv.syntaxError`. -/
def syntaxError (fn str : String) : NumError := { Func := fn, Num := str, Err := .ErrSyntax }

/-- Go `strconv.rangeError`. -/
def rangeError (fn str : String) : NumError := { Func := fn, Num := str, Err := .ErrRange }

/-- Go `strconv.lower` on a byte: `c | ('x' - 'X')`. -/
def lower (c : Nat) : Nat := c ||| ('x'.toNat - 'X'.toNat)

/-- The digit loop of `strconv.ParseUint(s, 10, 64)` over the remaining characters,
with the accumulator `n` a `uint64` (arithmetic modulo `2^64`). It returns the
value together with the error, as the Go function does. -/
def ParseUint.loop (s0 : String) : List Char → Nat → Nat × Option NumError
  | [], n => (n, none)
  | c :: cs, n =>
    let maxVal := 2 ^ 64 - 1
    let cutoff := (2 ^ 64 - 1) / 10 + 1
    if '0'.toNat ≤ c.toNat ∧ c.toNat ≤ '9'.toNat then
      let d := c.toNat - '0'.toNat
      if d ≥ 10 then (0, some (syntaxError "ParseUint" s0))
      else if n ≥ cutoff then (maxVal, some (rangeError "ParseUint" s0))
      else
        let n10 := n * 10 % 2 ^ 64
        let n1 := (n10 + d) % 2 ^ 64
        if n1 < n10 ∨ n1 > maxVal then (maxVal, some (rangeError "ParseUint" s0))
        else ParseUint.loop s0 cs n1
    else if 'a'.toNat ≤ lower c.toNat ∧ lower c.toNat ≤ 'z'.toNat then
      let d := lower c.toNat - 'a'.toNat + 10
      if d ≥ 10 then (0, some (syntaxError "ParseUint" s0))
      else if n ≥ cutoff then (maxVal, some (rangeError "ParseUint" s0))
      else
        let n10 := n * 10 % 2 ^ 64
        let n1 := (n10 + d) % 2 ^ 64
        if n1 < n10 ∨ n1 > maxVal then (maxVal, some (rangeError "ParseUint" s0))
        else ParseUint.loop s0 cs n1
    else (0, some (syntaxError "ParseUint" s0))

/-- Go `strconv.ParseUint(s, 10, 64)`. -/
def ParseUint (s : String) : Nat × Option NumError :=
  if s = "" then (0, some (syntaxError "ParseUint" s))
  else ParseUint.loop s s.data 0

/-- The Go conversion `int64(x)`: reduction into `[-2^63, 2^63)` modulo `2^64`. -/
def toInt64 (x : Int) : Int := (x + 2 ^ 63) % 2 ^ 64 - 2 ^ 63

/-- The second half of Go `strconv.ParseInt(s, 10, 64)`, after the leading sign
is picked off: convert the unsigned rest and check the range. `s0` is the whole
text, `neg` whether the sign was `-`. -/
def ParseInt.convert (s0 : String) (neg : Bool) (rest : List Char) : Except NumError Int :=
  match ParseUint ⟨rest⟩ with
  | (un, err) =>
    match err with
    | some { Func := _, Num := _, Err := .ErrSyntax } => .error (syntaxError "ParseInt" s0)
    | _ =>
      let cutoff := 2 ^ 63
      if neg = false ∧ un ≥ cutoff then .error (rangeError "ParseInt" s0)
      else if neg = true ∧ un > cutoff then .error (rangeError "ParseInt" s0)
      else
        let n := toInt64 un
        .ok (if neg then toInt64 (-n) else n)

/-- Go `strconv.ParseInt(s, 10, 64)`; the value returned beside an error is not
kept, the caller never reads it. -/
def ParseInt (s : String) : Except NumError Int :=
  if s = "" then .error (syntaxError "ParseInt" s)
  else
    match s.data with
    | '+' :: r => ParseInt.convert s false r
    | '-' :: r => ParseInt.convert s true r
    | cs => ParseInt.convert s false cs

/-- The copying loop of Go `strings.Replace(s, old, new, -1)` for a non-empty
`old`: `skip` counts the characters of a matched occurrence still to be passed
over. An occurrence is searched from the left, after the end of the previous one. -/
def Replace.loop (old new : List Char) : Nat → List Char → List Char
  | _, [] => []
  | skip + 1, _ :: rest => Replace.loop old new skip rest
  | 0, c :: rest =>
    if old.isPrefixOf (c :: rest) then new ++ Replace.loop old new (old.length - 1) rest
    else c :: Replace.loop old new 0 rest

/-- Go `strings.Replace(s, old, new, -1)` for a non-empty `old` (every
non-overlapping occurrence, from the left); with `old = new` the string is
returned as it is. -/
def Replace (s old new : String) : String :=
  if old = new then s else ⟨Replace.loop old.data new.data 0 s.data⟩

/-- Go `strings.Count(s, substr)` for a non-empty `substr`: the number of
non-overlapping occurrences, from the left. -/
def Count.loop (substr : List Char) : Nat → List Char → Nat
  | _, [] => 0
  | skip + 1, _ :: rest => Count.loop substr skip rest
  | 0, c :: rest =>
    if substr.isPrefixOf (c :: rest) then Count.loop substr (substr.length - 1) rest + 1
    else Count.loop substr 0 rest

/-- Go `strings.Count(s, substr)` for a non-empty `substr`. -/
def Count (s substr : String) : Nat := Count.loop substr.data 0 s.data

/-! ## `Init` and `InitService` -/

/-- A Go `error` value returned by the facade. -/
inductive GoError where
  | numError (e : NumError)
  | errorString (msg : String)
  deriving DecidableEq, Repr

/-- How a call ends: `nil` (success), a returned error, or a run-time panic. -/
inductive Outcome where
  | nil
  | err (e : GoError)
  | panic (msg : String)
  deriving DecidableEq, Repr

/-- First block of `Init`: the app-ID variable. -/
def Init.appID (env : Env) (p : GithubProvider) : Except NumError GithubProvider :=
  match LookupEnv env "GITHUB_APP_ID" with
  | some appIDValue =>
    match ParseInt appIDValue with
    | .error err => .error err
    | .ok appID => .ok { p with appID := appID }
  | none => .ok p

/-- Second block of `Init`: the installation-ID variable. -/
def Init.installationID (env : Env) (p : GithubProvider) : Except NumError GithubProvider :=
  match LookupEnv env "GITHUB_APP_INSTALLATION_ID" with
  | some installationIDValue =>
    match ParseInt installationIDValue with
    | .error err => .error err
    | .ok installationID => .ok { p with installationID := installationID }
  | none => .ok p

/-- Third block of `Init`: the PEM variable. -/
def Init.pem (env : Env) (p : GithubProvider) : GithubProvider :=
  match LookupEnv env "GITHUB_APP_PEM_FILE" with
  | some pem => { p with pem := Replace pem "\\n" "\n" }
  | none => p

/-- Last block of `Init`: the base URL, `if len(args) > 2 { ... }`. -/
def Init.baseURL (githubDefaultURL : String) (args : List String) (p : GithubProvider) :
    GithubProvider :=
  if args.length > 2 then
    if args.getD 2 "" ≠ "" then { p with baseURL := args.getD 2 "" }
    else { p with baseURL := githubDefaultURL }
  else p

/-- Go method `Init`. The package constant `githubDefaultURL` is declared in
another file and is a parameter here. The result is the facade after the call
together with the outcome; `args[0]` on an empty slice is the run-time panic of
an index out of range. -/
def Init (githubDefaultURL : String) (env : Env) (p : GithubProvider) (args : List String) :
    GithubProvider × Outcome :=
  match Init.appID env p with
  | .error err => (p, .err (.numError err))
  | .ok p1 =>
    match Init.installationID env p1 with
    | .error err => (p1, .err (.numError err))
    | .ok p2 =>
      let p3 := Init.pem env p2
      match args with
      | [] => (p3, .panic "runtime error: index out of range [0] with length 0")
      | args0 :: _ =>
        let p4 := { p3 with owner := args0 }
        if args.length < 2 then
          if Getenv env "GITHUB_TOKEN" = "" then
            (p4, .err (.errorString "token requirement"))
          else
            (Init.baseURL githubDefaultURL args { p4 with token := Getenv env "GITHUB_TOKEN" },
              .nil)
        else
          (Init.baseURL githubDefaultURL args { p4 with token := args.getD 1 "" }, .nil)

/-- The args bag that `InitService` passes to `SetArgs`. -/
def InitService.args (p : GithubProvider) : List (String × ArgValue) :=
  [ ("owner", .str p.owner),
    ("token", .str p.token),
    ("base_url", .str p.baseURL),
    ("app_id", .int p.appID),
    ("installation_id", .int p.installationID),
    ("pem", .str p.pem) ]

/-- Go method `InitService`. -/
def InitService (p : GithubProvider) (serviceName : String) (verbose : Bool) :
    GithubProvider × Outcome :=
  match (GetSupportedService p).lookup serviceName with
  | none =>
    (p, .err (.errorString (GetName p ++ ": " ++ serviceName ++ " not supported service")))
  | some service =>
    let service := service.SetName serviceName
    let service := service.SetVerbose verbose
    let service := service.SetProviderName (GetName p)
    let service := service.SetArgs (InitService.args p)
    ({ p with Service := some service }, .nil)

/-! ## Specification-side shapes of the emitted configuration -/

/-- The app-auth shape `{owner, app_auth: [{id, installation_id, pem_file}]}` of
the specification. -/
def appAuthShape (owner : String) (id installationID : Int) (pem : String) : CtyValue :=
  .ObjectVal [
    ("owner", .StringVal owner),
    ("app_auth", .ListVal [
      .ObjectVal [
        ("id", .NumberIntVal id),
        ("installation_id", .NumberIntVal installationID),
        ("pem_file", .StringVal pem)]])]

/-- The token shape `{owner, token, base_url}` of the specification. -/
def tokenShape (owner token baseURL : String) : CtyValue :=
  .ObjectVal [
    ("owner", .StringVal owner),
    ("token", .StringVal token),
    ("base_url", .StringVal baseURL)]

/-- A value is of the app-auth shape, whatever it carries. -/
def IsAppAuthShape (v : CtyValue) : Prop :=
  ∃ o i n m, v = appAuthShape o i n m

/-- A value is of the token shape, whatever it carries. -/
def IsTokenShape (v : CtyValue) : Prop :=
  ∃ o t b, v = tokenShape o t b

/-! ## Specification-side reading of the integer environment values -/

/-- A decimal digit `0` .. `9`. -/
def isDecimalDigit (c : Char) : Bool := decide ('0'.toNat ≤ c.toNat ∧ c.toNat ≤ '9'.toNat)

/-- The number written by a sequence of decimal digits, continuing from `n`. -/
def decimalValue (ds : List Char) (n : Nat) : Nat :=
  ds.foldl (fun n c => 10 * n + (c.toNat - '0'.toNat)) n

/-- The specification's "well-formed base-10 signed integer that fits in 64
bits": an optional sign, one or more decimal digits, and a value in
`[-2^63, 2^63)`. `none` when the text is not such an integer. -/
def decimalInt64? (s : String) : Option Int :=
  let (neg, ds) : Bool × List Char :=
    match s.data with
    | '+' :: r => (false, r)
    | '-' :: r => (true, r)
    | cs => (false, cs)
  if ds ≠ [] ∧ ds.all isDecimalDigit = true then
    let v : Int := (decimalValue ds 0 : Nat)
    let n : Int := if neg then -v else v
    if -2 ^ 63 ≤ n ∧ n < 2 ^ 63 then some n else none
  else none

/-- The variable is absent from the environment, or its text parses as an integer. -/
def absentOrWellFormed (env : Env) (key : String) : Bool :=
  match LookupEnv env key with
  | none => true
  | some v => (ParseInt v).toOption.isSome

/-! ## Specification-side reading of the PEM value and of the registry -/

/-- The specification's "replace every literal two-character escape sequence
backslash + `n` with an actual line-break character", reading left to right. -/
def unescapeNewlines : List Char → List Char
  | '\\' :: 'n' :: rest => '\n' :: unescapeNewlines rest
  | c :: rest => c :: unescapeNewlines rest
  | [] => []

/-- The number of occurrences that `unescapeNewlines` replaces. -/
def countEscapedNewlines : List Char → Nat
  | '\\' :: 'n' :: rest => countEscapedNewlines rest + 1
  | _ :: rest => countEscapedNewlines rest
  | [] => 0

/-- The eight service names of the specification's registry. -/
def registryNames : List String :=
  ["members", "organization", "organization_blocks", "organization_projects",
   "organization_webhooks", "repositories", "teams", "user_ssh_keys"]

/-- The environment in which exactly the listed variables are set. -/
def envOf (vars : List (String × String)) : Env := fun key => vars.lookup key

/-! ## Reading an emitted object, and the read-only methods as calls -/

/-- The value of the attribute `key` of an object value (`none` when the value
has no such attribute or is no object). -/
def CtyValue.attr (v : CtyValue) (key : String) : Option CtyValue :=
  match v with
  | .ObjectVal attrs => attrs.lookup key
  | _ => none

/-- The five methods of the facade other than `Init` and `InitService`. -/
inductive Getter where
  | GetConfig
  | GetProviderData (arg : List String)
  | GetName
  | GetSupportedService
  | GetResourceConnections

/-- The facade after a call of one of the five read-only methods. Their bodies
are a single `return` of a freshly built value with no assignment to a field of
`p` (`GetResourceConnections` and `GetProviderData` even have a value receiver),
so the state passed on is the state received. -/
def Getter.facadeAfter (g : Getter) (p : GithubProvider) : GithubProvider :=
  match g with
  | .GetConfig => p
  | .GetProviderData _ => p
  | .GetName => p
  | .GetSupportedService => p
  | .GetResourceConnections => p

/-- The credential fields of the facade, everything but the bound handle. -/
def GithubProvider.credentials (p : GithubProvider) :
    String × String × String × Int × Int × String :=
  (p.owner, p.token, p.baseURL, p.appID, p.installationID, p.pem)

/-! ## Theorems -/

theorem appAuthShape_ne_tokenShape (o : String) (i n : Int) (m o' t b : String) :
    appAuthShape o i n m ≠ tokenShape o' t b := by
  intro h
  simp [appAuthShape, tokenShape] at h

/-- C1: `GetConfig` returns the app-auth shape with the facade's owner, appID,
installationID and pem exactly when appID ≠ 0, installationID ≠ 0 and pem ≠ "";
in every other state it returns the token shape with exactly the facade's owner,
token and baseURL (an empty token included). No value is of both shapes, so
exactly one is emitted, and the two shapes have only the key `owner` in common. -/
theorem GetConfig_shape (p : GithubProvider) :
    (GetConfig p = appAuthShape p.owner p.appID p.installationID p.pem ↔
        (p.appID ≠ 0 ∧ p.installationID ≠ 0 ∧ p.pem ≠ "")) ∧
    (GetConfig p = tokenShape p.owner p.token p.baseURL ↔
        ¬ (p.appID ≠ 0 ∧ p.installationID ≠ 0 ∧ p.pem ≠ "")) ∧
    (IsAppAuthShape (GetConfig p) ↔ (p.appID ≠ 0 ∧ p.installationID ≠ 0 ∧ p.pem ≠ "")) ∧
    (IsTokenShape (GetConfig p) ↔ ¬ (p.appID ≠ 0 ∧ p.installationID ≠ 0 ∧ p.pem ≠ "")) ∧
    (IsAppAuthShape (GetConfig p) ↔ ¬ IsTokenShape (GetConfig p)) ∧
    (∀ k, (k ∈ (appAuthShape p.owner p.appID p.installationID p.pem).keys ∧
           k ∈ (tokenShape p.owner p.token p.baseURL).keys) ↔ k = "owner") := by
  have hA : (p.appID ≠ 0 ∧ p.installationID ≠ 0 ∧ p.pem ≠ "") →
      GetConfig p = appAuthShape p.owner p.appID p.installationID p.pem := by
    intro h
    simp only [GetConfig, if_pos h, appAuthShape]
  have hT : ¬ (p.appID ≠ 0 ∧ p.installationID ≠ 0 ∧ p.pem ≠ "") →
      GetConfig p = tokenShape p.owner p.token p.baseURL := by
    intro h
    simp only [GetConfig, if_neg h, tokenShape]
  by_cases h : (p.appID ≠ 0 ∧ p.installationID ≠ 0 ∧ p.pem ≠ "")
  · have hnT : ¬ IsTokenShape (GetConfig p) := by
      rintro ⟨o, t, b, e⟩
      rw [hA h] at e
      exact appAuthShape_ne_tokenShape _ _ _ _ _ _ _ e
    refine ⟨⟨fun _ => h, hA⟩, ⟨fun e => ?_, fun e => absurd h e⟩,
      ⟨fun _ => h, fun _ => ⟨_, _, _, _, hA h⟩⟩, ⟨fun e => absurd e hnT, fun e => absurd h e⟩,
      ⟨fun _ => hnT, fun _ => ⟨_, _, _, _, hA h⟩⟩, ?_⟩
    · exact absurd ⟨_, _, _, e⟩ hnT
    · intro k
      simp only [appAuthShape, tokenShape, CtyValue.keys, List.map, List.mem_cons,
        List.mem_singleton, List.not_mem_nil, or_false]
      constructor
      · rintro ⟨h1 | h1, h2 | h2 | h2⟩ <;> first | assumption | (subst h1; simp at h2)
      · intro e; exact ⟨Or.inl e, Or.inl e⟩
  · have hnA : ¬ IsAppAuthShape (GetConfig p) := by
      rintro ⟨o, i, n, m, e⟩
      rw [hT h] at e
      exact appAuthShape_ne_tokenShape _ _ _ _ _ _ _ e.symm
    refine ⟨⟨fun e => absurd ⟨_, _, _, _, e⟩ hnA, fun e => absurd e h⟩, ⟨fun _ => h, hT⟩,
      ⟨fun e => absurd e hnA, fun e => absurd e h⟩, ⟨fun _ => h, fun _ => ⟨_, _, _, hT h⟩⟩,
      ⟨fun e => absurd e hnA, fun e => absurd ⟨_, _, _, hT h⟩ e⟩, ?_⟩
    intro k
    simp only [appAuthShape, tokenShape, CtyValue.keys, List.map, List.mem_cons,
      List.mem_singleton, List.not_mem_nil, or_false]
    constructor
    · rintro ⟨h1 | h1, h2 | h2 | h2⟩ <;> first | assumption | (subst h1; simp at h2)
    · intro e; exact ⟨Or.inl e, Or.inl e⟩

/-! ### `strconv.ParseInt` accepts exactly the well-formed 64-bit decimal integers -/

theorem isDecimalDigit_iff (c : Char) : isDecimalDigit c = true ↔ 48 ≤ c.toNat ∧ c.toNat ≤ 57 := by
  simp [isDecimalDigit]

theorem decimalValue_cons (c : Char) (cs : List Char) (n : Nat) :
    decimalValue (c :: cs) n = decimalValue cs (10 * n + (c.toNat - 48)) := rfl

theorem decimalValue_ge (ds : List Char) (n : Nat) : n ≤ decimalValue ds n := by
  induction ds generalizing n with
  | nil => simp [decimalValue]
  | cons c cs ih =>
    have := ih (10 * n + (c.toNat - 48))
    rw [decimalValue_cons]
    omega

theorem ParseUint_loop_digit (s0 : String) (c : Char) (cs : List Char) (n : Nat)
    (hd : 48 ≤ c.toNat ∧ c.toNat ≤ 57) :
    ParseUint.loop s0 (c :: cs) n =
      if n ≥ 1844674407370955162 then (18446744073709551615, some (rangeError "ParseUint" s0))
      else if (n * 10 % 18446744073709551616 + (c.toNat - 48)) % 18446744073709551616
            < n * 10 % 18446744073709551616 then
        (18446744073709551615, some (rangeError "ParseUint" s0))
      else ParseUint.loop s0 cs
        ((n * 10 % 18446744073709551616 + (c.toNat - 48)) % 18446744073709551616) := by
  have h0 : '0'.toNat = 48 := rfl
  have h9 : '9'.toNat = 57 := rfl
  have hlt : ¬ (c.toNat - 48 ≥ 10) := by omega
  have hmax : ∀ x : Nat, ¬ (x % 18446744073709551616 > 18446744073709551615) := by
    intro x; omega
  rw [ParseUint.loop]
  simp only [h0, h9, hd, and_self, if_true, if_pos, hlt, if_false, Nat.reducePow, Nat.reduceSub,
    Nat.reduceDiv, Nat.reduceAdd, hmax, or_false]

theorem ParseUint_loop_nondigit (s0 : String) (c : Char) (cs : List Char) (n : Nat)
    (hd : ¬ (48 ≤ c.toNat ∧ c.toNat ≤ 57)) :
    ParseUint.loop s0 (c :: cs) n = (0, some (syntaxError "ParseUint" s0)) := by
  have h0 : '0'.toNat = 48 := rfl
  have h9 : '9'.toNat = 57 := rfl
  rw [ParseUint.loop]
  simp only [h0, h9, hd, if_false]
  split
  · simp
  · rfl

theorem ParseUint_loop_cases (s0 : String) (cs : List Char) (n : Nat)
    (hn : n < 18446744073709551616) :
    (cs.all isDecimalDigit = true ∧ decimalValue cs n < 18446744073709551616 ∧
        ParseUint.loop s0 cs n = (decimalValue cs n, none)) ∨
    (¬ (cs.all isDecimalDigit = true ∧ decimalValue cs n < 18446744073709551616) ∧
        (ParseUint.loop s0 cs n = (0, some (syntaxError "ParseUint" s0)) ∨
         ParseUint.loop s0 cs n = (18446744073709551615, some (rangeError "ParseUint" s0)))) := by
  induction cs generalizing n with
  | nil => left; simp [decimalValue, ParseUint.loop, hn]
  | cons c cs ih =>
    have hge := decimalValue_ge cs (10 * n + (c.toNat - 48))
    rw [decimalValue_cons, List.all_cons, Bool.and_eq_true, isDecimalDigit_iff]
    by_cases hd : 48 ≤ c.toNat ∧ c.toNat ≤ 57
    · rw [ParseUint_loop_digit s0 c cs n hd]
      by_cases h1 : n ≥ 1844674407370955162
      · rw [if_pos h1]
        right
        exact ⟨fun h => by omega, Or.inr rfl⟩
      · rw [if_neg h1]
        by_cases h2 : (n * 10 % 18446744073709551616 + (c.toNat - 48)) % 18446744073709551616
            < n * 10 % 18446744073709551616
        · rw [if_pos h2]
          right
          exact ⟨fun h => by omega, Or.inr rfl⟩
        · rw [if_neg h2]
          have e : (n * 10 % 18446744073709551616 + (c.toNat - 48)) % 18446744073709551616
              = 10 * n + (c.toNat - 48) := by omega
          rw [e]
          have hlt : 10 * n + (c.toNat - 48) < 18446744073709551616 := by omega
          rcases ih _ hlt with ⟨a, b, r⟩ | ⟨a, r⟩
          · left; exact ⟨⟨hd, a⟩, b, r⟩
          · right; exact ⟨fun h => a ⟨h.1.2, h.2⟩, r⟩
    · rw [ParseUint_loop_nondigit s0 c cs n hd]
      right
      exact ⟨fun h => hd h.1.1, Or.inl rfl⟩

/-- The value of `decimalInt64?` once the sign is picked off. -/
theorem ParseInt_convert_ok_iff (s0 : String) (neg : Bool) (rest : List Char) (n : Int) :
    ParseInt.convert s0 neg rest = .ok n ↔
      (rest ≠ [] ∧ rest.all isDecimalDigit = true ∧
        n = (if neg then -((decimalValue rest 0 : Nat) : Int) else ((decimalValue rest 0 : Nat) : Int)) ∧
        -9223372036854775808 ≤ n ∧ n < 9223372036854775808) := by
  by_cases hr : rest = []
  · subst hr
    simp [ParseInt.convert, ParseUint, syntaxError]
  · have hne : (⟨rest⟩ : String) ≠ "" := by
      intro h
      apply hr
      have := congrArg String.data h
      simpa using this
    have hPU : ParseUint ⟨rest⟩ = ParseUint.loop ⟨rest⟩ rest 0 := by
      simp only [ParseUint, if_neg hne]
    have hge := decimalValue_ge rest 0
    rcases ParseUint_loop_cases ⟨rest⟩ rest 0 (by norm_num) with ⟨a, b, r⟩ | ⟨a, r | r⟩
    · simp only [ParseInt.convert, hPU, r, Nat.reducePow]
      generalize decimalValue rest 0 = v at b ⊢
      cases neg
      · by_cases h1 : v ≥ 9223372036854775808
        · simp only [h1, and_self, if_true, false_and, if_false, Bool.false_eq_true]
          constructor
          · intro h; cases h
          · rintro ⟨-, -, h3, -, h5⟩; omega
        · simp only [h1, and_false, false_and, if_false, Bool.false_eq_true, Except.ok.injEq]
          have e : toInt64 (v : Int) = v := by unfold toInt64; omega
          rw [e]
          constructor
          · intro h; exact ⟨hr, a, h.symm, by omega, by omega⟩
          · rintro ⟨-, -, h3, -, -⟩; exact h3.symm
      · by_cases h1 : v > 9223372036854775808
        · simp only [h1, and_self, if_true, true_and, Bool.true_eq_false, false_and, if_false]
          constructor
          · intro h; cases h
          · rintro ⟨-, -, h3, h4, -⟩; omega
        · simp only [h1, and_false, Bool.true_eq_false, false_and, if_false, if_true,
            Except.ok.injEq]
          have e : toInt64 (-toInt64 (v : Int)) = -(v : Int) := by unfold toInt64; omega
          rw [e]
          constructor
          · intro h; exact ⟨hr, a, h.symm, by omega, by omega⟩
          · rintro ⟨-, -, h3, -, -⟩; exact h3.symm
    · simp only [ParseInt.convert, hPU, r, syntaxError]
      constructor
      · intro h; cases h
      · rintro ⟨-, h2, h3, h4, h5⟩
        exfalso; apply a; refine ⟨h2, ?_⟩
        cases neg <;> simp at h3 <;> omega
    · simp only [ParseInt.convert, hPU, r, rangeError, Nat.reducePow]
      constructor
      · intro h; cases neg <;> simp at h
      · rintro ⟨-, h2, h3, h4, h5⟩
        exfalso; apply a; refine ⟨h2, ?_⟩
        cases neg <;> simp at h3 <;> omega

theorem decimalInt64?_core (neg : Bool) (ds : List Char) (n : Int) :
    (if ds ≠ [] ∧ ds.all isDecimalDigit = true then
      (if -2 ^ 63 ≤ (if neg then -((decimalValue ds 0 : Nat) : Int) else ((decimalValue ds 0 : Nat) : Int)) ∧
          (if neg then -((decimalValue ds 0 : Nat) : Int) else ((decimalValue ds 0 : Nat) : Int)) < 2 ^ 63
        then some (if neg then -((decimalValue ds 0 : Nat) : Int) else ((decimalValue ds 0 : Nat) : Int))
        else none)
     else none) = some n ↔
      (ds ≠ [] ∧ ds.all isDecimalDigit = true ∧
        n = (if neg then -((decimalValue ds 0 : Nat) : Int) else ((decimalValue ds 0 : Nat) : Int)) ∧
        -9223372036854775808 ≤ n ∧ n < 9223372036854775808) := by
  generalize (if neg then -((decimalValue ds 0 : Nat) : Int) else ((decimalValue ds 0 : Nat) : Int)) = v
  by_cases h : ds ≠ [] ∧ ds.all isDecimalDigit = true
  · rw [if_pos h]
    by_cases h2 : -2 ^ 63 ≤ v ∧ v < 2 ^ 63
    · rw [if_pos h2]
      simp only [Option.some.injEq]
      constructor
      · intro e; subst e; exact ⟨h.1, h.2, rfl, by omega, by omega⟩
      · rintro ⟨-, -, e, -, -⟩; exact e.symm
    · rw [if_neg h2]
      constructor
      · intro e; cases e
      · rintro ⟨-, -, e, h4, h5⟩; subst e; exact absurd ⟨by omega, by omega⟩ h2
  · rw [if_neg h]
    constructor
    · intro e; cases e
    · rintro ⟨h1, h2, -⟩; exact absurd ⟨h1, h2⟩ h

/-- The Go parser accepts exactly the well-formed 64-bit decimal integers of the
specification, with their value. -/
theorem ParseInt_ok_iff (s : String) (n : Int) :
    ParseInt s = .ok n ↔ decimalInt64? s = some n := by
  by_cases hs : s = ""
  · subst hs
    constructor
    · intro h; simp [ParseInt] at h
    · intro h
      have e : decimalInt64? "" = none := by decide
      rw [e] at h; cases h
  · unfold ParseInt decimalInt64?
    rw [if_neg hs]
    split
    · rw [ParseInt_convert_ok_iff]; exact (decimalInt64?_core false _ n).symm
    · rw [ParseInt_convert_ok_iff]; exact (decimalInt64?_core true _ n).symm
    · rw [ParseInt_convert_ok_iff]; exact (decimalInt64?_core false _ n).symm

/-! ### `strings.Replace` of the escaped line break -/

theorem Replace_loop_eq (l : List Char) :
    Replace.loop ['\\', 'n'] ['\n'] 0 l = unescapeNewlines l := by
  induction l using unescapeNewlines.induct with
  | case1 rest ih =>
    simp only [Replace.loop, unescapeNewlines, List.isPrefixOf, beq_self_eq_true, Bool.and_self,
      if_true, List.length_cons, List.length_nil, List.singleton_append]
    simpa using ih
  | case2 c rest hne ih =>
    rw [unescapeNewlines, ← ih, Replace.loop]
    · have : List.isPrefixOf ['\\', 'n'] (c :: rest) = false := by
        cases rest with
        | nil => simp [List.isPrefixOf]
        | cons d t =>
          simp only [List.isPrefixOf, Bool.and_true]
          by_contra h
          simp at h
          exact hne t h.1.symm (by rw [← h.2])
      rw [this]; simp
    · exact hne
  | case3 => rfl

theorem Count_loop_eq (l : List Char) :
    Count.loop ['\\', 'n'] 0 l = countEscapedNewlines l := by
  induction l using countEscapedNewlines.induct with
  | case1 rest ih =>
    simp only [Count.loop, countEscapedNewlines, List.isPrefixOf, beq_self_eq_true, Bool.and_self,
      if_true, List.length_cons, List.length_nil]
    simpa using ih
  | case2 c rest hne ih =>
    rw [countEscapedNewlines, ← ih, Count.loop]
    · have : List.isPrefixOf ['\\', 'n'] (c :: rest) = false := by
        cases rest with
        | nil => simp [List.isPrefixOf]
        | cons d t =>
          simp only [List.isPrefixOf, Bool.and_true]
          by_contra h
          simp at h
          exact hne t h.1.symm (by rw [← h.2])
      rw [this]; simp
    · exact hne
  | case3 => rfl

theorem unescapeNewlines_length (l : List Char) :
    (unescapeNewlines l).length + countEscapedNewlines l = l.length := by
  induction l using unescapeNewlines.induct with
  | case1 rest ih => simp only [unescapeNewlines, countEscapedNewlines, List.length_cons]; omega
  | case2 c rest hne ih =>
    rw [unescapeNewlines, countEscapedNewlines]
    · simp only [List.length_cons]; omega
    · exact hne
    · exact hne
  | case3 => rfl

theorem unescapeNewlines_utf8Len (l : List Char) :
    String.utf8Len (unescapeNewlines l) + countEscapedNewlines l = String.utf8Len l := by
  induction l using unescapeNewlines.induct with
  | case1 rest ih =>
    have e1 : Char.utf8Size '\n' = 1 := by decide
    have e2 : Char.utf8Size '\\' = 1 := by decide
    have e3 : Char.utf8Size 'n' = 1 := by decide
    simp only [unescapeNewlines, countEscapedNewlines, String.utf8Len_cons, e1, e2, e3]; omega
  | case2 c rest hne ih =>
    rw [unescapeNewlines, countEscapedNewlines]
    · simp only [String.utf8Len_cons]; omega
    · exact hne
    · exact hne
  | case3 => rfl

theorem unescapeNewlines_head (l t : List Char) (h : unescapeNewlines l = 'n' :: t) :
    ∃ r, l = 'n' :: r := by
  induction l using unescapeNewlines.induct with
  | case1 rest _ => simp [unescapeNewlines] at h
  | case2 c rest hne _ =>
    rw [unescapeNewlines] at h
    · simp only [List.cons.injEq] at h
      exact ⟨rest, by rw [h.1]⟩
    · exact hne
  | case3 => simp [unescapeNewlines] at h

theorem unescapeNewlines_no_escape (l : List Char) :
    ¬ ['\\', 'n'] <:+: unescapeNewlines l := by
  induction l using unescapeNewlines.induct with
  | case1 rest ih =>
    rw [unescapeNewlines, List.infix_cons_iff]
    rintro (h | h)
    · obtain ⟨t, ht⟩ := h
      simp at ht
    · exact ih h
  | case2 c rest hne ih =>
    rw [unescapeNewlines, List.infix_cons_iff]
    · rintro (h | h)
      · obtain ⟨t, ht⟩ := h
        simp only [List.cons_append, List.nil_append, List.cons.injEq] at ht
        obtain ⟨r, hr⟩ := unescapeNewlines_head rest t ht.2.symm
        exact hne r ht.1.symm hr
      · exact ih h
    · exact hne
  | case3 => simp [unescapeNewlines]

/-! ### The blocks of `Init` -/

theorem absentOrWellFormed_iff (env : Env) (key : String) :
    absentOrWellFormed env key = true ↔
      env key = none ∨ ∃ v n, env key = some v ∧ ParseInt v = .ok n := by
  unfold absentOrWellFormed LookupEnv
  cases h : env key with
  | none => simp
  | some v =>
    cases hv : ParseInt v with
    | error e => simp [hv, Except.toOption]
    | ok n => simp [hv, Except.toOption]

theorem Init_appID_none (env : Env) (p : GithubProvider) (h : env "GITHUB_APP_ID" = none) :
    Init.appID env p = .ok p := by
  simp only [Init.appID, LookupEnv, h]

theorem Init_appID_ok (env : Env) (p : GithubProvider) (v : String) (n : Int)
    (h : env "GITHUB_APP_ID" = some v) (hv : ParseInt v = .ok n) :
    Init.appID env p = .ok { p with appID := n } := by
  simp only [Init.appID, LookupEnv, h, hv]

theorem Init_appID_error (env : Env) (p : GithubProvider) (v : String) (e : NumError)
    (h : env "GITHUB_APP_ID" = some v) (hv : ParseInt v = .error e) :
    Init.appID env p = .error e := by
  simp only [Init.appID, LookupEnv, h, hv]

theorem Init_installationID_none (env : Env) (p : GithubProvider)
    (h : env "GITHUB_APP_INSTALLATION_ID" = none) :
    Init.installationID env p = .ok p := by
  simp only [Init.installationID, LookupEnv, h]

theorem Init_installationID_ok (env : Env) (p : GithubProvider) (v : String) (n : Int)
    (h : env "GITHUB_APP_INSTALLATION_ID" = some v) (hv : ParseInt v = .ok n) :
    Init.installationID env p = .ok { p with installationID := n } := by
  simp only [Init.installationID, LookupEnv, h, hv]

theorem Init_installationID_error (env : Env) (p : GithubProvider) (v : String) (e : NumError)
    (h : env "GITHUB_APP_INSTALLATION_ID" = some v) (hv : ParseInt v = .error e) :
    Init.installationID env p = .error e := by
  simp only [Init.installationID, LookupEnv, h, hv]

/-- The first block of `Init` either fails on a present, malformed value or
assigns at most `appID`. -/
theorem Init_appID_cases (env : Env) (p : GithubProvider) :
    (env "GITHUB_APP_ID" = none ∧ Init.appID env p = .ok p) ∨
    (∃ v n, env "GITHUB_APP_ID" = some v ∧ ParseInt v = .ok n ∧
      Init.appID env p = .ok { p with appID := n }) ∨
    (∃ v e, env "GITHUB_APP_ID" = some v ∧ ParseInt v = .error e ∧
      Init.appID env p = .error e) := by
  cases h : env "GITHUB_APP_ID" with
  | none => exact Or.inl ⟨rfl, Init_appID_none env p h⟩
  | some v =>
    cases hv : ParseInt v with
    | error e => exact Or.inr (Or.inr ⟨v, e, rfl, hv, Init_appID_error env p v e h hv⟩)
    | ok n => exact Or.inr (Or.inl ⟨v, n, rfl, hv, Init_appID_ok env p v n h hv⟩)

theorem Init_installationID_cases (env : Env) (p : GithubProvider) :
    (env "GITHUB_APP_INSTALLATION_ID" = none ∧ Init.installationID env p = .ok p) ∨
    (∃ v n, env "GITHUB_APP_INSTALLATION_ID" = some v ∧ ParseInt v = .ok n ∧
      Init.installationID env p = .ok { p with installationID := n }) ∨
    (∃ v e, env "GITHUB_APP_INSTALLATION_ID" = some v ∧ ParseInt v = .error e ∧
      Init.installationID env p = .error e) := by
  cases h : env "GITHUB_APP_INSTALLATION_ID" with
  | none => exact Or.inl ⟨rfl, Init_installationID_none env p h⟩
  | some v =>
    cases hv : ParseInt v with
    | error e =>
      exact Or.inr (Or.inr ⟨v, e, rfl, hv, Init_installationID_error env p v e h hv⟩)
    | ok n => exact Or.inr (Or.inl ⟨v, n, rfl, hv, Init_installationID_ok env p v n h hv⟩)

/-- With both integer variables absent or well-formed, the two parsing blocks succeed. -/
theorem Init_blocks_ok (env : Env) (p : GithubProvider)
    (hApp : absentOrWellFormed env "GITHUB_APP_ID" = true)
    (hInst : absentOrWellFormed env "GITHUB_APP_INSTALLATION_ID" = true) :
    ∃ p1 p2, Init.appID env p = .ok p1 ∧ Init.installationID env p1 = .ok p2 := by
  rw [absentOrWellFormed_iff] at hApp hInst
  have h1 : ∃ p1, Init.appID env p = .ok p1 := by
    rcases hApp with h | ⟨v, n, h, hv⟩
    · exact ⟨_, Init_appID_none env p h⟩
    · exact ⟨_, Init_appID_ok env p v n h hv⟩
  obtain ⟨p1, h1⟩ := h1
  rcases hInst with h | ⟨v, n, h, hv⟩
  · exact ⟨p1, _, h1, Init_installationID_none env p1 h⟩
  · exact ⟨p1, _, h1, Init_installationID_ok env p1 v n h hv⟩

/-- C2 (code defect): with the app-ID and installation-ID values absent or
well-formed, `Init` on an empty argument sequence ends in the run-time panic of
the unguarded `args[0]`; it neither returns an error (no "missing owner" error
exists) nor succeeds. -/
theorem Init_empty_args_panics (githubDefaultURL : String) (env : Env) (p : GithubProvider)
    (hApp : absentOrWellFormed env "GITHUB_APP_ID" = true)
    (hInst : absentOrWellFormed env "GITHUB_APP_INSTALLATION_ID" = true) :
    (Init githubDefaultURL env p []).2 = .panic "runtime error: index out of range [0] with length 0" ∧
    (∀ e, (Init githubDefaultURL env p []).2 ≠ .err e) ∧
    (Init githubDefaultURL env p []).2 ≠ .nil := by
  obtain ⟨p1, p2, h1, h2⟩ := Init_blocks_ok env p hApp hInst
  have e : (Init githubDefaultURL env p []).2 = .panic "runtime error: index out of range [0] with length 0" := by
    simp only [Init, h1, h2]
  rw [e]
  refine ⟨rfl, ?_, ?_⟩
  · intro e h; cases h
  · intro h; cases h

/-- An environment with a well-formed app-ID: `Init` on no arguments panics. -/
theorem Init_empty_args_panics_witness :
    (Init "https://api.github.com/" (envOf [("GITHUB_APP_ID", "1"), ("GITHUB_TOKEN", "tok")])
        GithubProvider.fresh []).2 = .panic "runtime error: index out of range [0] with length 0" :=
  (Init_empty_args_panics "https://api.github.com/"
    (envOf [("GITHUB_APP_ID", "1"), ("GITHUB_TOKEN", "tok")]) GithubProvider.fresh
    (by decide) (by decide)).1

/-- `Init` once its two parsing blocks have succeeded. -/
theorem Init_of_blocks (githubDefaultURL : String) (env : Env) (p p1 p2 : GithubProvider)
    (args : List String) (h1 : Init.appID env p = .ok p1)
    (h2 : Init.installationID env p1 = .ok p2) :
    Init githubDefaultURL env p args =
      match args with
      | [] => (Init.pem env p2, .panic "runtime error: index out of range [0] with length 0")
      | args0 :: _ =>
        if args.length < 2 then
          if Getenv env "GITHUB_TOKEN" = "" then
            ({ Init.pem env p2 with owner := args0 }, .err (.errorString "token requirement"))
          else
            (Init.baseURL githubDefaultURL args
              { Init.pem env p2 with owner := args0, token := Getenv env "GITHUB_TOKEN" }, .nil)
        else
          (Init.baseURL githubDefaultURL args
            { Init.pem env p2 with owner := args0, token := args.getD 1 "" }, .nil) := by
  simp only [Init, h1, h2]

theorem Init_pem_frame (env : Env) (p : GithubProvider) :
    (Init.pem env p).Service = p.Service ∧ (Init.pem env p).owner = p.owner ∧
    (Init.pem env p).token = p.token ∧ (Init.pem env p).baseURL = p.baseURL ∧
    (Init.pem env p).appID = p.appID ∧ (Init.pem env p).installationID = p.installationID := by
  unfold Init.pem
  split <;> simp

theorem Init_baseURL_frame (githubDefaultURL : String) (args : List String) (p : GithubProvider) :
    (Init.baseURL githubDefaultURL args p).Service = p.Service ∧
    (Init.baseURL githubDefaultURL args p).owner = p.owner ∧
    (Init.baseURL githubDefaultURL args p).token = p.token ∧
    (Init.baseURL githubDefaultURL args p).appID = p.appID ∧
    (Init.baseURL githubDefaultURL args p).installationID = p.installationID ∧
    (Init.baseURL githubDefaultURL args p).pem = p.pem := by
  unfold Init.baseURL
  split
  · split <;> simp
  · simp

/-- C3 fails as stated: with `GITHUB_APP_ID=5` and no token variable,
`Init(["acme"])` on a fresh facade returns the error "token requirement", yet
owner is "acme" and appID is 5 afterwards: the facade is not the one before the call. -/
theorem Init_not_atomic :
    (Init "https://api.github.com/" (envOf [("GITHUB_APP_ID", "5")]) GithubProvider.fresh
        ["acme"]).2 = .err (.errorString "token requirement") ∧
    (Init "https://api.github.com/" (envOf [("GITHUB_APP_ID", "5")]) GithubProvider.fresh
        ["acme"]).1.owner = "acme" ∧
    (Init "https://api.github.com/" (envOf [("GITHUB_APP_ID", "5")]) GithubProvider.fresh
        ["acme"]).1.appID = 5 ∧
    (Init "https://api.github.com/" (envOf [("GITHUB_APP_ID", "5")]) GithubProvider.fresh
        ["acme"]).1 ≠ GithubProvider.fresh := by
  decide

/-- What an `Init` that returns an error has left alone: token, baseURL and the
bound handle always; owner, installationID and pem too on an integer-parse
error; the whole facade on the parse error of the app-ID value. -/
theorem Init_error_unchanged (githubDefaultURL : String) (env : Env) (p : GithubProvider)
    (args : List String) (e : GoError)
    (h : (Init githubDefaultURL env p args).2 = .err e) :
    (Init githubDefaultURL env p args).1.token = p.token ∧
    (Init githubDefaultURL env p args).1.baseURL = p.baseURL ∧
    (Init githubDefaultURL env p args).1.Service = p.Service ∧
    (∀ ne, e = .numError ne →
      (Init githubDefaultURL env p args).1.owner = p.owner ∧
      (Init githubDefaultURL env p args).1.installationID = p.installationID ∧
      (Init githubDefaultURL env p args).1.pem = p.pem) ∧
    (∀ v ne, env "GITHUB_APP_ID" = some v → ParseInt v = .error ne →
      (Init githubDefaultURL env p args).1 = p) := by
  have key : ∀ p1, (p1.token = p.token ∧ p1.baseURL = p.baseURL ∧ p1.Service = p.Service ∧
        p1.owner = p.owner ∧ p1.installationID = p.installationID ∧ p1.pem = p.pem ∧
        Init.appID env p = .ok p1) →
      (Init githubDefaultURL env p args).1.token = p.token ∧
      (Init githubDefaultURL env p args).1.baseURL = p.baseURL ∧
      (Init githubDefaultURL env p args).1.Service = p.Service ∧
      (∀ ne, e = .numError ne →
        (Init githubDefaultURL env p args).1.owner = p.owner ∧
        (Init githubDefaultURL env p args).1.installationID = p.installationID ∧
        (Init githubDefaultURL env p args).1.pem = p.pem) ∧
      (∀ v ne, env "GITHUB_APP_ID" = some v → ParseInt v = .error ne →
        (Init githubDefaultURL env p args).1 = p) := by
    rintro p1 ⟨a1, a2, a3, a4, a5, a6, h1⟩
    have hlast : ∀ v ne, env "GITHUB_APP_ID" = some v → ParseInt v = .error ne → False := by
      intro v ne hv hp
      rw [Init_appID_error env p v ne hv hp] at h1
      cases h1
    rcases Init_installationID_cases env p1 with ⟨-, h2⟩ | ⟨v, n, -, -, h2⟩ | ⟨v, ne, -, -, h2⟩
    · rw [Init_of_blocks githubDefaultURL env p p1 p1 args h1 h2] at h ⊢
      obtain ⟨b1, b2, b3, b4, b5, b6⟩ := Init_pem_frame env p1
      cases args with
      | nil => cases h
      | cons a0 rest =>
        simp only at h ⊢
        split at h
        · split at h
          · rename_i hl ht
            simp only [if_pos hl, if_pos ht]
            simp only [Outcome.err.injEq] at h
            refine ⟨by rw [b3, a1], by rw [b4, a2], by rw [b1, a3], ?_, fun v ne a b => (hlast v ne a b).elim⟩
            intro ne hne
            rw [hne] at h
            cases h
          · cases h
        · cases h
    · rw [Init_of_blocks githubDefaultURL env p p1 _ args h1 h2] at h ⊢
      obtain ⟨b1, b2, b3, b4, b5, b6⟩ :=
        Init_pem_frame env { p1 with installationID := n }
      cases args with
      | nil => cases h
      | cons a0 rest =>
        simp only at h ⊢
        split at h
        · split at h
          · rename_i hl ht
            simp only [if_pos hl, if_pos ht]
            simp only [Outcome.err.injEq] at h
            refine ⟨by rw [b3, a1], by rw [b4, a2], by rw [b1, a3], ?_, fun v ne a b => (hlast v ne a b).elim⟩
            intro ne hne
            rw [hne] at h
            cases h
          · cases h
        · cases h
    · have e1 : Init githubDefaultURL env p args = (p1, .err (.numError ne)) := by
        simp only [Init, h1, h2]
      rw [e1]
      exact ⟨a1, a2, a3, fun _ _ => ⟨a4, a5, a6⟩, fun v ne a b => (hlast v ne a b).elim⟩
  rcases Init_appID_cases env p with ⟨-, h1⟩ | ⟨v, n, -, -, h1⟩ | ⟨v, ne, hv, hp, h1⟩
  · exact key p ⟨rfl, rfl, rfl, rfl, rfl, rfl, h1⟩
  · exact key { p with appID := n } ⟨rfl, rfl, rfl, rfl, rfl, rfl, h1⟩
  · have e1 : Init githubDefaultURL env p args = (p, .err (.numError ne)) := by
      simp only [Init, h1]
    rw [e1]
    exact ⟨rfl, rfl, rfl, fun _ _ => ⟨rfl, rfl, rfl⟩, fun _ _ _ _ => rfl⟩

/-- What an `Init` that returns an error has assigned: the steps that ran before
the failing one leave their values in the facade. -/
theorem Init_error_assigned (githubDefaultURL : String) (env : Env) (p : GithubProvider)
    (args : List String) (e : GoError)
    (h : (Init githubDefaultURL env p args).2 = .err e) :
    (∀ a n, env "GITHUB_APP_ID" = some a → ParseInt a = .ok n →
      (Init githubDefaultURL env p args).1.appID = n) ∧
    (env "GITHUB_APP_ID" = none → (Init githubDefaultURL env p args).1.appID = p.appID) ∧
    (∀ msg, e = .errorString msg →
      msg = "token requirement" ∧
      (∃ args0, args = [args0] ∧ (Init githubDefaultURL env p args).1.owner = args0) ∧
      (∀ i m, env "GITHUB_APP_INSTALLATION_ID" = some i → ParseInt i = .ok m →
        (Init githubDefaultURL env p args).1.installationID = m) ∧
      (env "GITHUB_APP_INSTALLATION_ID" = none →
        (Init githubDefaultURL env p args).1.installationID = p.installationID) ∧
      (∀ s, env "GITHUB_APP_PEM_FILE" = some s →
        (Init githubDefaultURL env p args).1.pem = Replace s "\\n" "\n") ∧
      (env "GITHUB_APP_PEM_FILE" = none → (Init githubDefaultURL env p args).1.pem = p.pem)) := by
  -- the first block
  rcases Init_appID_cases env p with ⟨hA, h1⟩ | ⟨a, n, hA, hn, h1⟩ | ⟨a, ne, hA, hn, h1⟩
  on_goal 3 =>
    have e1 : Init githubDefaultURL env p args = (p, .err (.numError ne)) := by
      simp only [Init, h1]
    rw [e1] at h ⊢
    cases h
    refine ⟨?_, ?_, ?_⟩
    · intro a2 n2 ha2 hn2
      rw [hA] at ha2; cases ha2
      rw [hn] at hn2; cases hn2
    · intro hh; rfl
    · intro msg hm; cases hm
  all_goals
    -- the facade after the first block, its appID and what it leaves alone
    obtain ⟨p1, h1, hp1A, hp1I, hp1P⟩ : ∃ p1, Init.appID env p = .ok p1 ∧
        ((∀ a2 n2, env "GITHUB_APP_ID" = some a2 → ParseInt a2 = .ok n2 → p1.appID = n2) ∧
          (env "GITHUB_APP_ID" = none → p1.appID = p.appID)) ∧
        p1.installationID = p.installationID ∧ p1.pem = p.pem := by
      refine ⟨_, h1, ⟨?_, ?_⟩, rfl, rfl⟩
      · intro a2 n2 ha2 hn2
        first
          | (rw [hA] at ha2; cases ha2; done)
          | (rw [hA] at ha2; cases ha2; rw [hn] at hn2; cases hn2; rfl)
      · intro hh
        first
          | rfl
          | (rw [hA] at hh; cases hh)
    rcases Init_installationID_cases env p1 with
      ⟨hI, h2⟩ | ⟨i, m, hI, hm, h2⟩ | ⟨i, ne, hI, hm, h2⟩
    on_goal 3 =>
      have e1 : Init githubDefaultURL env p args = (p1, .err (.numError ne)) := by
        simp only [Init, h1, h2]
      rw [e1] at h ⊢
      cases h
      exact ⟨hp1A.1, hp1A.2, fun msg hm => by cases hm⟩
    all_goals
      obtain ⟨p2, h2, hp2A, hp2I, hp2P⟩ : ∃ p2, Init.installationID env p1 = .ok p2 ∧
          p2.appID = p1.appID ∧
          ((∀ i2 m2, env "GITHUB_APP_INSTALLATION_ID" = some i2 → ParseInt i2 = .ok m2 →
              p2.installationID = m2) ∧
            (env "GITHUB_APP_INSTALLATION_ID" = none → p2.installationID = p.installationID)) ∧
          p2.pem = p.pem := by
        refine ⟨_, h2, rfl, ⟨?_, ?_⟩, hp1P⟩
        · intro i2 m2 hi2 hm2
          first
            | (rw [hI] at hi2; cases hi2; done)
            | (rw [hI] at hi2; cases hi2; rw [hm] at hm2; cases hm2; rfl)
        · intro hh
          first
            | exact hp1I
            | (rw [hI] at hh; cases hh)
      obtain ⟨-, -, -, -, b5, b6⟩ := Init_pem_frame env p2
      have hpem : (∀ s, env "GITHUB_APP_PEM_FILE" = some s →
            (Init.pem env p2).pem = Replace s "\\n" "\n") ∧
          (env "GITHUB_APP_PEM_FILE" = none → (Init.pem env p2).pem = p.pem) := by
        constructor
        · intro s hs; simp only [Init.pem, LookupEnv, hs]
        · intro hs; simp only [Init.pem, LookupEnv, hs]; exact hp2P
      rw [Init_of_blocks githubDefaultURL env p p1 p2 args h1 h2] at h ⊢
      cases args with
      | nil => cases h
      | cons a0 rest =>
        cases rest with
        | cons a1 r =>
          have hl : ¬ (a0 :: a1 :: r).length < 2 := by simp
          simp only [if_neg hl] at h
          cases h
        | nil =>
          have hl : [a0].length < 2 := by simp
          simp only [if_pos hl] at h ⊢
          by_cases ht : Getenv env "GITHUB_TOKEN" = ""
          · rw [if_pos ht] at h ⊢
            simp only [Outcome.err.injEq] at h
            refine ⟨?_, ?_, ?_⟩
            · intro a2 n2 ha2 hn2
              show (Init.pem env p2).appID = n2
              rw [b5, hp2A]; exact hp1A.1 a2 n2 ha2 hn2
            · intro hh
              show (Init.pem env p2).appID = p.appID
              rw [b5, hp2A]; exact hp1A.2 hh
            · intro msg hmsg
              rw [hmsg] at h
              simp only [GoError.errorString.injEq] at h
              refine ⟨h.symm, ⟨a0, rfl, rfl⟩, ?_, ?_, hpem.1, hpem.2⟩
              · intro i2 m2 hi2 hm2
                show (Init.pem env p2).installationID = m2
                rw [b6]; exact hp2I.1 i2 m2 hi2 hm2
              · intro hh
                show (Init.pem env p2).installationID = p.installationID
                rw [b6]; exact hp2I.2 hh
          · rw [if_neg ht] at h
            cases h

/-- C3 as amended: if `Init` returns an error, then token, baseURL and the bound
service handle equal their values before the call; if the error is an
integer-parse error then owner, installationID and pem are unchanged as well;
and if it is the parse error of the app-ID value, every field of the facade is
unchanged. The fields assigned by the steps that ran before the failing one
keep their new values: appID is the parsed app-ID value whenever that value is
well-formed (its prior value when the variable is absent), and on the error
"token requirement", the only error that is no integer-parse error and one that
arises with a single argument only, owner is `args[0]`, installationID is the
parsed installation-ID value (its prior value when the variable is absent) and
pem is the unescaped PEM value (its prior value when the variable is absent). -/
theorem Init_error_frame (githubDefaultURL : String) (env : Env) (p : GithubProvider)
    (args : List String) (e : GoError)
    (h : (Init githubDefaultURL env p args).2 = .err e) :
    (Init githubDefaultURL env p args).1.token = p.token ∧
    (Init githubDefaultURL env p args).1.baseURL = p.baseURL ∧
    (Init githubDefaultURL env p args).1.Service = p.Service ∧
    (∀ ne, e = .numError ne →
      (Init githubDefaultURL env p args).1.owner = p.owner ∧
      (Init githubDefaultURL env p args).1.installationID = p.installationID ∧
      (Init githubDefaultURL env p args).1.pem = p.pem) ∧
    (∀ v ne, env "GITHUB_APP_ID" = some v → ParseInt v = .error ne →
      (Init githubDefaultURL env p args).1 = p) ∧
    (∀ a n, env "GITHUB_APP_ID" = some a → ParseInt a = .ok n →
      (Init githubDefaultURL env p args).1.appID = n) ∧
    (env "GITHUB_APP_ID" = none → (Init githubDefaultURL env p args).1.appID = p.appID) ∧
    (∀ msg, e = .errorString msg →
      msg = "token requirement" ∧
      (∃ args0, args = [args0] ∧ (Init githubDefaultURL env p args).1.owner = args0) ∧
      (∀ i m, env "GITHUB_APP_INSTALLATION_ID" = some i → ParseInt i = .ok m →
        (Init githubDefaultURL env p args).1.installationID = m) ∧
      (env "GITHUB_APP_INSTALLATION_ID" = none →
        (Init githubDefaultURL env p args).1.installationID = p.installationID) ∧
      (∀ s, env "GITHUB_APP_PEM_FILE" = some s →
        (Init githubDefaultURL env p args).1.pem = Replace s "\\n" "\n") ∧
      (env "GITHUB_APP_PEM_FILE" = none → (Init githubDefaultURL env p args).1.pem = p.pem)) := by
  obtain ⟨u1, u2, u3, u4, u5⟩ := Init_error_unchanged githubDefaultURL env p args e h
  obtain ⟨a1, a2, a3⟩ := Init_error_assigned githubDefaultURL env p args e h
  exact ⟨u1, u2, u3, u4, u5, a1, a2, a3⟩

/-- What a successful `Init` has done: both parsing blocks passed, `args` is
non-empty, and the facade is the one assembled from the later blocks. -/
theorem Init_success (githubDefaultURL : String) (env : Env) (p : GithubProvider)
    (args : List String) (h : (Init githubDefaultURL env p args).2 = .nil) :
    ∃ p1 p2 args0 rest, Init.appID env p = .ok p1 ∧ Init.installationID env p1 = .ok p2 ∧
      args = args0 :: rest ∧
      (rest = [] → Getenv env "GITHUB_TOKEN" ≠ "") ∧
      (Init githubDefaultURL env p args).1 =
        Init.baseURL githubDefaultURL args
          { Init.pem env p2 with
            owner := args0
            token := if rest = [] then Getenv env "GITHUB_TOKEN" else args.getD 1 "" } := by
  have hA : ∃ p1, Init.appID env p = .ok p1 := by
    rcases Init_appID_cases env p with ⟨-, h1⟩ | ⟨v, n, -, -, h1⟩ | ⟨v, ne, hv, hp, h1⟩
    · exact ⟨_, h1⟩
    · exact ⟨_, h1⟩
    · have e1 : Init githubDefaultURL env p args = (p, .err (.numError ne)) := by
        simp only [Init, h1]
      rw [e1] at h; cases h
  obtain ⟨p1, h1⟩ := hA
  have hB : ∃ p2, Init.installationID env p1 = .ok p2 := by
    rcases Init_installationID_cases env p1 with ⟨-, h2⟩ | ⟨v, n, -, -, h2⟩ | ⟨v, ne, -, -, h2⟩
    · exact ⟨_, h2⟩
    · exact ⟨_, h2⟩
    · have e1 : (Init githubDefaultURL env p args).2 = .err (.numError ne) := by
        simp only [Init, h1, h2]
      rw [e1] at h; cases h
  obtain ⟨p2, h2⟩ := hB
  refine ⟨p1, p2, ?_⟩
  rw [Init_of_blocks githubDefaultURL env p p1 p2 args h1 h2] at h ⊢
  cases args with
  | nil => cases h
  | cons a0 rest =>
    refine ⟨a0, rest, h1, h2, rfl, ?_⟩
    cases rest with
    | nil =>
      simp only [List.length_cons, List.length_nil, Nat.zero_add, Nat.one_lt_ofNat,
        if_true] at h ⊢
      by_cases ht : Getenv env "GITHUB_TOKEN" = ""
      · rw [if_pos ht] at h; cases h
      · rw [if_neg ht]; exact ⟨fun _ => ht, rfl⟩
    | cons a1 r =>
      have hl : ¬ (a0 :: a1 :: r).length < 2 := by simp
      refine ⟨fun hh => (by cases hh), ?_⟩
      simp only [if_neg hl]
      simp

theorem Getenv_eq_empty_iff (env : Env) (key : String) :
    Getenv env key = "" ↔ env key = none ∨ env key = some "" := by
  unfold Getenv
  cases h : env key with
  | none => simp
  | some v => simp

/-- C4 fails as stated: with the token variable present but empty (and both
integer variables absent), `Init(["acme"])` does not succeed, it returns the
error "token requirement". -/
theorem Init_empty_env_token_fails :
    LookupEnv (envOf [("GITHUB_TOKEN", "")]) "GITHUB_TOKEN" = some "" ∧
    absentOrWellFormed (envOf [("GITHUB_TOKEN", "")]) "GITHUB_APP_ID" = true ∧
    absentOrWellFormed (envOf [("GITHUB_TOKEN", "")]) "GITHUB_APP_INSTALLATION_ID" = true ∧
    (Init "https://api.github.com/" (envOf [("GITHUB_TOKEN", "")]) GithubProvider.fresh
        ["acme"]).2 = .err (.errorString "token requirement") ∧
    (Init "https://api.github.com/" (envOf [("GITHUB_TOKEN", "")]) GithubProvider.fresh
        ["acme"]).2 ≠ .nil := by
  decide

/-- C4 as amended: for single-element args and an environment whose app-ID and
installation-ID values are absent or well-formed, `Init` fails with the error
"token requirement" if the token variable is absent or empty; if it is set to a
non-empty value, `Init` succeeds and the facade's token is that value. -/
theorem Init_single_arg_token (githubDefaultURL : String) (env : Env) (p : GithubProvider)
    (owner : String)
    (hApp : absentOrWellFormed env "GITHUB_APP_ID" = true)
    (hInst : absentOrWellFormed env "GITHUB_APP_INSTALLATION_ID" = true) :
    ((env "GITHUB_TOKEN" = none ∨ env "GITHUB_TOKEN" = some "") →
      (Init githubDefaultURL env p [owner]).2 = .err (.errorString "token requirement")) ∧
    (∀ t, env "GITHUB_TOKEN" = some t → t ≠ "" →
      (Init githubDefaultURL env p [owner]).2 = .nil ∧
      (Init githubDefaultURL env p [owner]).1.token = t) := by
  obtain ⟨p1, p2, h1, h2⟩ := Init_blocks_ok env p hApp hInst
  rw [Init_of_blocks githubDefaultURL env p p1 p2 [owner] h1 h2]
  have hl : [owner].length < 2 := by simp
  simp only [if_pos hl]
  constructor
  · intro h
    rw [if_pos ((Getenv_eq_empty_iff env _).2 h)]
  · intro t ht hne
    have hg : Getenv env "GITHUB_TOKEN" = t := by simp only [Getenv, ht]
    have hne2 : ¬ Getenv env "GITHUB_TOKEN" = "" := by rw [hg]; exact hne
    rw [if_neg hne2]
    refine ⟨rfl, ?_⟩
    rw [(Init_baseURL_frame githubDefaultURL [owner] _).2.2.1]
    exact hg

/-- Token variable set to "tok123": `Init(["acme"])` succeeds with that token. -/
theorem Init_single_arg_token_witness :
    (Init "https://api.github.com/" (envOf [("GITHUB_TOKEN", "tok123")]) GithubProvider.fresh
        ["acme"]).2 = .nil ∧
    (Init "https://api.github.com/" (envOf [("GITHUB_TOKEN", "tok123")]) GithubProvider.fresh
        ["acme"]).1.token = "tok123" :=
  (Init_single_arg_token "https://api.github.com/" (envOf [("GITHUB_TOKEN", "tok123")])
    GithubProvider.fresh "acme" (by decide) (by decide)).2 "tok123" (by decide) (by decide)

/-- C5: for args with at least two elements and two environments that agree on
every variable other than the token variable, `Init` gives the same facade and
the same outcome in both, and when it succeeds the facade's token is `args[1]`
exactly (no trimming, no substitution, the empty string included). -/
theorem Init_positional_token (githubDefaultURL : String) (env1 env2 : Env)
    (p : GithubProvider) (args : List String) (hlen : 2 ≤ args.length)
    (henv : ∀ key, key ≠ "GITHUB_TOKEN" → env1 key = env2 key) :
    Init githubDefaultURL env1 p args = Init githubDefaultURL env2 p args ∧
    ((Init githubDefaultURL env1 p args).2 = .nil →
      (Init githubDefaultURL env1 p args).1.token = args.get ⟨1, hlen⟩) := by
  have e1 : env1 "GITHUB_APP_ID" = env2 "GITHUB_APP_ID" := henv _ (by decide)
  have e2 : env1 "GITHUB_APP_INSTALLATION_ID" = env2 "GITHUB_APP_INSTALLATION_ID" :=
    henv _ (by decide)
  have e3 : env1 "GITHUB_APP_PEM_FILE" = env2 "GITHUB_APP_PEM_FILE" := henv _ (by decide)
  have hA : ∀ q, Init.appID env1 q = Init.appID env2 q := by
    intro q; simp only [Init.appID, LookupEnv, e1]
  have hI : ∀ q, Init.installationID env1 q = Init.installationID env2 q := by
    intro q; simp only [Init.installationID, LookupEnv, e2]
  have hP : ∀ q, Init.pem env1 q = Init.pem env2 q := by
    intro q; simp only [Init.pem, LookupEnv, e3]
  match args, hlen with
  | a0 :: a1 :: rest, hlen =>
    have hl : ¬ (a0 :: a1 :: rest).length < 2 := by simp
    constructor
    · simp only [Init, hA, hI, hP, if_neg hl]
    · intro h
      obtain ⟨p1, p2, b0, r, -, -, hargs, -, hres⟩ := Init_success githubDefaultURL env1 p _ h
      rw [hres, (Init_baseURL_frame githubDefaultURL _ _).2.2.1]
      cases hargs
      simp

/-- Args `["acme", ""]`: the same result with the token variable set or unset,
success, and an empty token. -/
theorem Init_positional_token_witness :
    Init "https://api.github.com/" (envOf [("GITHUB_TOKEN", "fromenv")]) GithubProvider.fresh
        ["acme", ""] =
      Init "https://api.github.com/" (envOf []) GithubProvider.fresh ["acme", ""] ∧
    (Init "https://api.github.com/" (envOf [("GITHUB_TOKEN", "fromenv")]) GithubProvider.fresh
        ["acme", ""]).2 = .nil ∧
    (Init "https://api.github.com/" (envOf [("GITHUB_TOKEN", "fromenv")]) GithubProvider.fresh
        ["acme", ""]).1.token = "" :=
  have h := Init_positional_token "https://api.github.com/" (envOf [("GITHUB_TOKEN", "fromenv")])
    (envOf []) GithubProvider.fresh ["acme", ""] (by decide)
    (fun key hk => by
      simp only [envOf, List.lookup]
      have : (key == "GITHUB_TOKEN") = false := by simpa using hk
      rw [this])
  ⟨h.1, by decide, h.2 (by decide)⟩

theorem Init_success_baseURL (githubDefaultURL : String) (env : Env) (p : GithubProvider)
    (args : List String) (h : (Init githubDefaultURL env p args).2 = .nil) :
    (Init githubDefaultURL env p args).1.baseURL =
      if args.length > 2 then
        (if args.getD 2 "" ≠ "" then args.getD 2 "" else githubDefaultURL)
      else p.baseURL := by
  obtain ⟨p1, p2, a0, r, h1, h2, -, -, hres⟩ := Init_success githubDefaultURL env p args h
  have hb1 : p1.baseURL = p.baseURL := by
    rcases Init_appID_cases env p with ⟨-, e⟩ | ⟨v, n, -, -, e⟩ | ⟨v, ne, -, -, e⟩ <;>
      rw [e] at h1 <;> cases h1 <;> rfl
  have hb2 : p2.baseURL = p1.baseURL := by
    rcases Init_installationID_cases env p1 with ⟨-, e⟩ | ⟨v, n, -, -, e⟩ | ⟨v, ne, -, -, e⟩ <;>
      rw [e] at h2 <;> cases h2 <;> rfl
  rw [hres]
  unfold Init.baseURL
  split
  · split
    · rfl
    · rfl
  · show (Init.pem env p2).baseURL = p.baseURL
    rw [(Init_pem_frame env p2).2.2.2.1, hb2, hb1]

/-- C6: for a fresh facade and args/environment on which `Init` succeeds, the
resulting baseURL is `args[2]` when there are more than two arguments and
`args[2]` is non-empty, the default host constant when `args[2]` is the empty
string, and the empty string when there are at most two arguments; and the
arguments beyond index 2 have no effect on the result of `Init`. -/
theorem Init_baseURL_resolved (githubDefaultURL : String) (env : Env) (args : List String)
    (h : (Init githubDefaultURL env GithubProvider.fresh args).2 = .nil) :
    (∀ a0 a1 a2 rest, args = a0 :: a1 :: a2 :: rest → a2 ≠ "" →
      (Init githubDefaultURL env GithubProvider.fresh args).1.baseURL = a2) ∧
    (∀ a0 a1 rest, args = a0 :: a1 :: "" :: rest →
      (Init githubDefaultURL env GithubProvider.fresh args).1.baseURL = githubDefaultURL) ∧
    (args.length ≤ 2 →
      (Init githubDefaultURL env GithubProvider.fresh args).1.baseURL = "") ∧
    (∀ p a0 a1 a2 rest, Init githubDefaultURL env p (a0 :: a1 :: a2 :: rest) =
      Init githubDefaultURL env p [a0, a1, a2]) := by
  have hb := Init_success_baseURL githubDefaultURL env GithubProvider.fresh args h
  refine ⟨?_, ?_, ?_, ?_⟩
  · intro a0 a1 a2 rest hargs hne
    rw [hb, hargs]
    simp [hne]
  · intro a0 a1 rest hargs
    rw [hb, hargs]
    simp
  · intro hl
    rw [hb, if_neg (by omega)]
    rfl
  · intro p a0 a1 a2 rest
    have hl : ¬ (rest.length + 1 + 1 + 1 < 2) := by omega
    simp [Init, Init.baseURL, hl]

/-- An empty third argument (and an ignored fourth) resolves to the default host. -/
theorem Init_baseURL_resolved_witness :
    (Init "https://api.github.com/" (envOf []) GithubProvider.fresh
        ["acme", "tok", "", "extra"]).1.baseURL = "https://api.github.com/" :=
  (Init_baseURL_resolved "https://api.github.com/" (envOf []) ["acme", "tok", "", "extra"]
    (by decide)).2.1 "acme" "tok" ["extra"] rfl

theorem Init_of_blocks_ids (githubDefaultURL : String) (env : Env) (p p1 p2 : GithubProvider)
    (args : List String) (h1 : Init.appID env p = .ok p1)
    (h2 : Init.installationID env p1 = .ok p2) :
    (Init githubDefaultURL env p args).1.appID = p2.appID ∧
    (Init githubDefaultURL env p args).1.installationID = p2.installationID ∧
    (∀ e, (Init githubDefaultURL env p args).2 ≠ .err (.numError e)) := by
  obtain ⟨-, -, -, -, b5, b6⟩ := Init_pem_frame env p2
  rw [Init_of_blocks githubDefaultURL env p p1 p2 args h1 h2]
  cases args with
  | nil => exact ⟨b5, b6, fun e h => by cases h⟩
  | cons a0 rest =>
    simp only
    split
    · split
      · exact ⟨b5, b6, fun e h => by cases h⟩
      · refine ⟨?_, ?_, fun e h => by cases h⟩
        · rw [(Init_baseURL_frame githubDefaultURL _ _).2.2.2.1]; exact b5
        · rw [(Init_baseURL_frame githubDefaultURL _ _).2.2.2.2.1]; exact b6
    · refine ⟨?_, ?_, fun e h => by cases h⟩
      · rw [(Init_baseURL_frame githubDefaultURL _ _).2.2.2.1]; exact b5
      · rw [(Init_baseURL_frame githubDefaultURL _ _).2.2.2.2.1]; exact b6

theorem ParseInt_error_of_none (v : String) (h : decimalInt64? v = none) :
    ∃ e, ParseInt v = .error e := by
  cases hv : ParseInt v with
  | error e => exact ⟨e, rfl⟩
  | ok n =>
    rw [(ParseInt_ok_iff v n).1 hv] at h
    cases h

/-- C7: for the app-ID and the installation-ID variable alike: a present value
that is a well-formed base-10 signed integer fitting in 64 bits is the value of
the field after a successful `Init`; a present value that is not such an integer
makes `Init` fail with an integer-parse error; an absent variable leaves the
field at its prior value; and every integer-parse error that `Init` returns is
the parse error of a variable that is present. -/
theorem Init_integer_env (githubDefaultURL : String) (env : Env) (p : GithubProvider)
    (args : List String) :
    (∀ v n, env "GITHUB_APP_ID" = some v → decimalInt64? v = some n →
      (Init githubDefaultURL env p args).2 = .nil →
      (Init githubDefaultURL env p args).1.appID = n) ∧
    (∀ v, env "GITHUB_APP_ID" = some v → decimalInt64? v = none →
      ∃ e, (Init githubDefaultURL env p args).2 = .err (.numError e)) ∧
    (env "GITHUB_APP_ID" = none → (Init githubDefaultURL env p args).1.appID = p.appID) ∧
    (∀ v n, env "GITHUB_APP_INSTALLATION_ID" = some v → decimalInt64? v = some n →
      (Init githubDefaultURL env p args).2 = .nil →
      (Init githubDefaultURL env p args).1.installationID = n) ∧
    (∀ v, env "GITHUB_APP_INSTALLATION_ID" = some v → decimalInt64? v = none →
      ∃ e, (Init githubDefaultURL env p args).2 = .err (.numError e)) ∧
    (env "GITHUB_APP_INSTALLATION_ID" = none →
      (Init githubDefaultURL env p args).1.installationID = p.installationID) ∧
    (∀ e, (Init githubDefaultURL env p args).2 = .err (.numError e) →
      (∃ v, env "GITHUB_APP_ID" = some v ∧ ParseInt v = .error e) ∨
      (∃ v, env "GITHUB_APP_INSTALLATION_ID" = some v ∧ ParseInt v = .error e)) := by
  -- the facade and the outcome when the first block fails
  have hfail1 : ∀ e, Init.appID env p = .error e →
      Init githubDefaultURL env p args = (p, .err (.numError e)) := by
    intro e h; simp only [Init, h]
  -- and when the second block fails
  have hfail2 : ∀ p1 e, Init.appID env p = .ok p1 → Init.installationID env p1 = .error e →
      Init githubDefaultURL env p args = (p1, .err (.numError e)) := by
    intro p1 e h1 h2; simp only [Init, h1, h2]
  refine ⟨?_, ?_, ?_, ?_, ?_, ?_, ?_⟩
  · intro v n hv hd hnil
    have hp := (ParseInt_ok_iff v n).2 hd
    have h1 := Init_appID_ok env p v n hv hp
    obtain ⟨q1, q2, a0, r, h1', h2, -, -, -⟩ := Init_success githubDefaultURL env p args hnil
    rw [h1] at h1'; cases h1'
    rw [(Init_of_blocks_ids githubDefaultURL env p _ q2 args h1 h2).1]
    rcases Init_installationID_cases env { p with appID := n } with
      ⟨-, e⟩ | ⟨w, m, -, -, e⟩ | ⟨w, ne, -, -, e⟩ <;> rw [e] at h2 <;> cases h2 <;> rfl
  · intro v hv hd
    obtain ⟨e, he⟩ := ParseInt_error_of_none v hd
    exact ⟨e, by rw [hfail1 e (Init_appID_error env p v e hv he)]⟩
  · intro hv
    have h1 := Init_appID_none env p hv
    rcases Init_installationID_cases env p with ⟨-, e⟩ | ⟨w, m, -, -, e⟩ | ⟨w, ne, -, -, e⟩
    · rw [(Init_of_blocks_ids githubDefaultURL env p p _ args h1 e).1]
    · rw [(Init_of_blocks_ids githubDefaultURL env p p _ args h1 e).1]
    · rw [hfail2 p ne h1 e]
  · intro v n hv hd hnil
    have hp := (ParseInt_ok_iff v n).2 hd
    obtain ⟨q1, q2, a0, r, h1, h2, -, -, -⟩ := Init_success githubDefaultURL env p args hnil
    rw [(Init_of_blocks_ids githubDefaultURL env p q1 q2 args h1 h2).2.1]
    rw [Init_installationID_ok env q1 v n hv hp] at h2
    cases h2; rfl
  · intro v hv hd
    obtain ⟨e, he⟩ := ParseInt_error_of_none v hd
    rcases Init_appID_cases env p with ⟨-, h1⟩ | ⟨w, m, -, -, h1⟩ | ⟨w, ne, -, -, h1⟩
    · exact ⟨e, by rw [hfail2 _ e h1 (Init_installationID_error env _ v e hv he)]⟩
    · exact ⟨e, by rw [hfail2 _ e h1 (Init_installationID_error env _ v e hv he)]⟩
    · exact ⟨ne, by rw [hfail1 ne h1]⟩
  · intro hv
    rcases Init_appID_cases env p with ⟨-, h1⟩ | ⟨w, m, -, -, h1⟩ | ⟨w, ne, -, -, h1⟩
    · rw [(Init_of_blocks_ids githubDefaultURL env p _ _ args h1
        (Init_installationID_none env _ hv)).2.1]
    · rw [(Init_of_blocks_ids githubDefaultURL env p _ _ args h1
        (Init_installationID_none env _ hv)).2.1]
    · rw [hfail1 ne h1]
  · intro e he
    rcases Init_appID_cases env p with ⟨-, h1⟩ | ⟨w, m, -, -, h1⟩ | ⟨w, ne, hw, hp, h1⟩
    on_goal 3 =>
      rw [hfail1 ne h1] at he
      cases he
      exact Or.inl ⟨w, hw, hp⟩
    all_goals
      rcases Init_installationID_cases env _ with
        ⟨-, h2⟩ | ⟨u, k, -, -, h2⟩ | ⟨u, ne, hu, hp, h2⟩
      · exact absurd he ((Init_of_blocks_ids githubDefaultURL env p _ _ args h1 h2).2.2 e)
      · exact absurd he ((Init_of_blocks_ids githubDefaultURL env p _ _ args h1 h2).2.2 e)
      · rw [hfail2 _ ne h1 h2] at he
        cases he
        exact Or.inr ⟨u, hu, hp⟩

theorem Replace_escaped_newline (s : String) :
    Replace s "\\n" "\n" = ⟨unescapeNewlines s.data⟩ := by
  have hne : ¬ ("\\n" : String) = "\n" := by decide
  unfold Replace
  rw [if_neg hne]
  exact congrArg String.mk (Replace_loop_eq s.data)

theorem Count_escaped_newline (s : String) :
    Count s "\\n" = countEscapedNewlines s.data :=
  Count_loop_eq s.data

theorem Init_success_pem (githubDefaultURL : String) (env : Env) (p : GithubProvider)
    (args : List String) (h : (Init githubDefaultURL env p args).2 = .nil) :
    (Init githubDefaultURL env p args).1.pem =
      match env "GITHUB_APP_PEM_FILE" with
      | some pem => Replace pem "\\n" "\n"
      | none => p.pem := by
  obtain ⟨p1, p2, a0, r, h1, h2, -, -, hres⟩ := Init_success githubDefaultURL env p args h
  have hb1 : p1.pem = p.pem := by
    rcases Init_appID_cases env p with ⟨-, e⟩ | ⟨v, n, -, -, e⟩ | ⟨v, ne, -, -, e⟩ <;>
      rw [e] at h1 <;> cases h1 <;> rfl
  have hb2 : p2.pem = p1.pem := by
    rcases Init_installationID_cases env p1 with ⟨-, e⟩ | ⟨v, n, -, -, e⟩ | ⟨v, ne, -, -, e⟩ <;>
      rw [e] at h2 <;> cases h2 <;> rfl
  rw [hres, (Init_baseURL_frame githubDefaultURL _ _).2.2.2.2.2]
  show (Init.pem env p2).pem = _
  unfold Init.pem LookupEnv
  cases env "GITHUB_APP_PEM_FILE" with
  | none => simp only; rw [hb2, hb1]
  | some s => rfl

/-- C8: after a successful `Init` with the PEM variable set to `s`, the facade's
pem is `s` with every occurrence (left to right, non-overlapping) of backslash +
`n` replaced by one line feed; it contains no occurrence of backslash + `n`; and
its length is the length of `s` minus the number of occurrences replaced, in
characters and in bytes. -/
theorem Init_pem_unescaped (githubDefaultURL : String) (env : Env) (p : GithubProvider)
    (args : List String) (s : String)
    (hs : env "GITHUB_APP_PEM_FILE" = some s)
    (h : (Init githubDefaultURL env p args).2 = .nil) :
    (Init githubDefaultURL env p args).1.pem = ⟨unescapeNewlines s.data⟩ ∧
    ¬ (['\\', 'n'] <:+: (Init githubDefaultURL env p args).1.pem.data) ∧
    (Init githubDefaultURL env p args).1.pem.length = s.length - Count s "\\n" ∧
    (Init githubDefaultURL env p args).1.pem.utf8ByteSize =
      s.utf8ByteSize - Count s "\\n" := by
  have e : (Init githubDefaultURL env p args).1.pem = ⟨unescapeNewlines s.data⟩ := by
    rw [Init_success_pem githubDefaultURL env p args h, hs]
    exact Replace_escaped_newline s
  rw [e, Count_escaped_newline]
  refine ⟨rfl, unescapeNewlines_no_escape s.data, ?_, ?_⟩
  · have := unescapeNewlines_length s.data
    show (unescapeNewlines s.data).length = s.data.length - _
    omega
  · have := unescapeNewlines_utf8Len s.data
    show String.utf8Len (unescapeNewlines s.data) = String.utf8Len s.data - _
    omega

/-- The escaped three-line key of the specification resolves to three lines
separated by line feeds. -/
theorem Init_pem_unescaped_witness :
    (Init "https://api.github.com/"
        (envOf [("GITHUB_APP_PEM_FILE", "-----BEGIN KEY-----\\nABC\\n-----END KEY-----")])
        GithubProvider.fresh ["acme", "tok123"]).1.pem =
      "-----BEGIN KEY-----\nABC\n-----END KEY-----" ∧
    "-----BEGIN KEY-----\nABC\n-----END KEY-----" =
      "-----BEGIN KEY-----" ++ String.singleton (Char.ofNat 10) ++ "ABC" ++
        String.singleton (Char.ofNat 10) ++ "-----END KEY-----" :=
  ⟨(Init_pem_unescaped "https://api.github.com/"
      (envOf [("GITHUB_APP_PEM_FILE", "-----BEGIN KEY-----\\nABC\\n-----END KEY-----")])
      GithubProvider.fresh ["acme", "tok123"]
      "-----BEGIN KEY-----\\nABC\\n-----END KEY-----" (by decide) (by decide)).1.trans
      (by decide), by decide⟩

theorem lookup_registry_none (p : GithubProvider) (name : String) (h : name ∉ registryNames) :
    (GetSupportedService p).lookup name = none := by
  simp only [registryNames, List.mem_cons, List.mem_singleton, List.not_mem_nil, or_false,
    not_or] at h
  obtain ⟨h1, h2, h3, h4, h5, h6, h7, h8⟩ := h
  have b : ∀ k : String, ¬ name = k → (name == k) = false := fun k hk => by simpa using hk
  simp only [GetSupportedService, List.lookup, b _ h1, b _ h2, b _ h3, b _ h4, b _ h5, b _ h6,
    b _ h7, b _ h8]

theorem lookup_registry_some (p : GithubProvider) (name : String) (h : name ∈ registryNames) :
    ∃ g, (GetSupportedService p).lookup name = some (Generator.new g) := by
  simp only [registryNames, List.mem_cons, List.mem_singleton, List.not_mem_nil, or_false] at h
  rcases h with h | h | h | h | h | h | h | h <;> subst h <;> exact ⟨_, rfl⟩

/-- C9: for a service name that is not one of the eight registry names,
`InitService` returns the error "github: " + name + " not supported service" and
the facade after the call is the facade before it, the bound generator handle
with everything injected into it included. -/
theorem InitService_unsupported (p : GithubProvider) (name : String) (verbose : Bool)
    (h : name ∉ registryNames) :
    InitService p name verbose =
      (p, .err (.errorString ("github" ++ ": " ++ name ++ " not supported service"))) := by
  simp only [InitService, lookup_registry_none p name h, GetName]

/-- A facade bound to the members generator stays as it is on "bogus". -/
theorem InitService_unsupported_witness :
    InitService ((InitService GithubProvider.fresh "members" true).1) "bogus" false =
      ((InitService GithubProvider.fresh "members" true).1,
        .err (.errorString "github: bogus not supported service")) :=
  InitService_unsupported _ "bogus" false (by decide)

/-- C10: for a service name of the registry, `InitService` succeeds and binds the
facade to the generator registered under that name, in its zero state but for
the injected name, verbose flag, provider name "github" and the args bag whose
keys are exactly owner, token, base_url, app_id, installation_id, pem with the
facade's six credential values, in every credential state; no credential field
changes. -/
theorem InitService_supported (p : GithubProvider) (name : String) (verbose : Bool)
    (h : name ∈ registryNames) :
    ∃ g, (GetSupportedService p).lookup name = some (Generator.new g) ∧
      InitService p name verbose =
        ({ p with
            Service := some
              { variant := g
                Name := name
                Verbose := verbose
                ProviderName := "github"
                Args :=
                  [ ("owner", .str p.owner), ("token", .str p.token),
                    ("base_url", .str p.baseURL), ("app_id", .int p.appID),
                    ("installation_id", .int p.installationID), ("pem", .str p.pem) ] } },
          .nil) := by
  obtain ⟨g, hg⟩ := lookup_registry_some p name h
  refine ⟨g, hg, ?_⟩
  simp only [InitService, hg]
  rfl

/-- The call `InitService("members", true)` on a fresh facade. -/
theorem InitService_supported_witness :
    InitService GithubProvider.fresh "members" true =
      ({ GithubProvider.fresh with
          Service := some
            { variant := .MembersGenerator
              Name := "members"
              Verbose := true
              ProviderName := "github"
              Args :=
                [ ("owner", .str ""), ("token", .str ""), ("base_url", .str ""),
                  ("app_id", .int 0), ("installation_id", .int 0), ("pem", .str "") ] } },
        .nil) := by
  obtain ⟨g, hg, h⟩ := InitService_supported GithubProvider.fresh "members" true (by decide)
  have e : g = .MembersGenerator := by
    have h2 : (GetSupportedService GithubProvider.fresh).lookup "members" =
        some (Generator.new .MembersGenerator) := by decide
    rw [h2] at hg
    simp only [Option.some.injEq, Generator.new, ServiceGenerator.mk.injEq] at hg
    exact hg.1.symm
  rw [h, e]
  rfl


/-- The input of the counterexample: token, baseURL and handle are untouched
while owner and appID hold their new values; and with a malformed
installation-ID value the parse error leaves the appID already assigned. -/
theorem Init_error_frame_witness :
    (Init "https://api.github.com/" (envOf [("GITHUB_APP_ID", "5")]) GithubProvider.fresh
        ["acme"]).2 = .err (.errorString "token requirement") ∧
    (Init "https://api.github.com/" (envOf [("GITHUB_APP_ID", "5")]) GithubProvider.fresh
        ["acme"]).1.token = "" ∧
    (Init "https://api.github.com/" (envOf [("GITHUB_APP_ID", "5")]) GithubProvider.fresh
        ["acme"]).1.baseURL = "" ∧
    (Init "https://api.github.com/" (envOf [("GITHUB_APP_ID", "5")]) GithubProvider.fresh
        ["acme"]).1.Service = none ∧
    (Init "https://api.github.com/" (envOf [("GITHUB_APP_ID", "5")]) GithubProvider.fresh
        ["acme"]).1.appID = 5 ∧
    (∃ args0, ["acme"] = [args0] ∧
      (Init "https://api.github.com/" (envOf [("GITHUB_APP_ID", "5")]) GithubProvider.fresh
        ["acme"]).1.owner = args0) ∧
    (Init "https://api.github.com/"
        (envOf [("GITHUB_APP_ID", "5"), ("GITHUB_APP_INSTALLATION_ID", "x")])
        GithubProvider.fresh ["acme", "tok"]).2 =
      .err (.numError (syntaxError "ParseInt" "x")) ∧
    (Init "https://api.github.com/"
        (envOf [("GITHUB_APP_ID", "5"), ("GITHUB_APP_INSTALLATION_ID", "x")])
        GithubProvider.fresh ["acme", "tok"]).1.appID = 5 ∧
    (Init "https://api.github.com/"
        (envOf [("GITHUB_APP_ID", "5"), ("GITHUB_APP_INSTALLATION_ID", "x")])
        GithubProvider.fresh ["acme", "tok"]).1.owner = "" :=
  have h := Init_error_frame "https://api.github.com/" (envOf [("GITHUB_APP_ID", "5")])
    GithubProvider.fresh ["acme"] (.errorString "token requirement") (by decide)
  have g := Init_error_frame "https://api.github.com/"
    (envOf [("GITHUB_APP_ID", "5"), ("GITHUB_APP_INSTALLATION_ID", "x")])
    GithubProvider.fresh ["acme", "tok"] (.numError (syntaxError "ParseInt" "x")) (by decide)
  ⟨by decide, h.1, h.2.1, h.2.2.1, h.2.2.2.2.2.1 "5" 5 (by decide) rfl,
   (h.2.2.2.2.2.2.2 "token requirement" rfl).2.1, by decide,
   g.2.2.2.2.2.1 "5" 5 (by decide) rfl, (g.2.2.2.1 _ rfl).1⟩

/-- Well-formed values 42 and -7 are resolved; the values "4x2", "" and
"9223372036854775808" are not integers of 64 bits and make `Init` fail. -/
theorem Init_integer_env_witness :
    (Init "https://api.github.com/"
        (envOf [("GITHUB_APP_ID", "42"), ("GITHUB_APP_INSTALLATION_ID", "-7")])
        GithubProvider.fresh ["acme", "tok"]).1.appID = 42 ∧
    (Init "https://api.github.com/"
        (envOf [("GITHUB_APP_ID", "42"), ("GITHUB_APP_INSTALLATION_ID", "-7")])
        GithubProvider.fresh ["acme", "tok"]).1.installationID = -7 ∧
    (∃ e, (Init "https://api.github.com/" (envOf [("GITHUB_APP_ID", "4x2")])
        GithubProvider.fresh ["acme", "tok"]).2 = .err (.numError e)) ∧
    (∃ e, (Init "https://api.github.com/" (envOf [("GITHUB_APP_ID", "")])
        GithubProvider.fresh ["acme", "tok"]).2 = .err (.numError e)) ∧
    (∃ e, (Init "https://api.github.com/"
        (envOf [("GITHUB_APP_INSTALLATION_ID", "9223372036854775808")])
        GithubProvider.fresh ["acme", "tok"]).2 = .err (.numError e)) :=
  ⟨(Init_integer_env _ _ _ _).1 "42" 42 (by decide) (by decide) (by decide),
   (Init_integer_env _ _ _ _).2.2.2.1 "-7" (-7) (by decide) (by decide) (by decide),
   (Init_integer_env _ _ _ _).2.1 "4x2" (by decide) (by decide),
   (Init_integer_env _ _ _ _).2.1 "" (by decide) (by decide),
   (Init_integer_env _ _ _ _).2.2.2.2.1 "9223372036854775808" (by decide) (by decide)⟩

/-! ### The registry, and the configuration emitted after `Init` -/

/-- `InitService` succeeds exactly on the names the registry maps. -/
theorem InitService_nil_iff_lookup (p : GithubProvider) (name : String) (verbose : Bool) :
    (InitService p name verbose).2 = .nil ↔
      ((GetSupportedService p).lookup name).isSome = true := by
  unfold InitService
  cases (GetSupportedService p).lookup name with
  | none => simp
  | some g => simp

/-- C11: in every facade state `GetSupportedService` is the same registry; its
keys are exactly members, organization, organization_blocks,
organization_projects, organization_webhooks, repositories, teams and
user_ssh_keys, eight distinct names; and `InitService(name, v)` succeeds if and
only if `name` is one of them. -/
theorem GetSupportedService_keys (p : GithubProvider) :
    (∀ q : GithubProvider, GetSupportedService q = GetSupportedService p) ∧
    (GetSupportedService p).map Prod.fst = registryNames ∧
    (∀ name, name ∈ (GetSupportedService p).map Prod.fst ↔
      name = "members" ∨ name = "organization" ∨ name = "organization_blocks" ∨
      name = "organization_projects" ∨ name = "organization_webhooks" ∨
      name = "repositories" ∨ name = "teams" ∨ name = "user_ssh_keys") ∧
    ((GetSupportedService p).map Prod.fst).Nodup ∧
    ((GetSupportedService p).map Prod.fst).length = 8 ∧
    (∀ name verbose, (InitService p name verbose).2 = .nil ↔
      name ∈ (GetSupportedService p).map Prod.fst) := by
  have hk : (GetSupportedService p).map Prod.fst = registryNames := rfl
  refine ⟨fun _ => rfl, hk, ?_, ?_, ?_, ?_⟩
  · intro name
    rw [hk]
    simp [registryNames]
  · rw [hk]; decide
  · rw [hk]; rfl
  · intro name verbose
    rw [hk, InitService_nil_iff_lookup]
    by_cases h : name ∈ registryNames
    · obtain ⟨g, hg⟩ := lookup_registry_some p name h
      simp [hg, h]
    · simp [lookup_registry_none p name h, h]

/-- The name "teams" is served after an `Init`; the name "team" is not. -/
theorem GetSupportedService_keys_witness :
    (InitService ((Init "https://api.github.com/" (envOf []) GithubProvider.fresh
        ["acme", "tok"]).1) "teams" false).2 = .nil ∧
    (InitService GithubProvider.fresh "team" false).2 =
      .err (.errorString "github: team not supported service") :=
  ⟨((GetSupportedService_keys _).2.2.2.2.2 "teams" false).2 (by decide), by decide⟩

/-- After a successful `Init`, owner is `args[0]` and token is the environment
token (one argument, then non-empty) or `args[1]` (two or more arguments). -/
theorem Init_success_owner_token (githubDefaultURL : String) (env : Env) (p : GithubProvider)
    (args : List String) (h : (Init githubDefaultURL env p args).2 = .nil) :
    ∃ args0 rest, args = args0 :: rest ∧
      (Init githubDefaultURL env p args).1.owner = args0 ∧
      (Init githubDefaultURL env p args).1.token =
        (if rest = [] then Getenv env "GITHUB_TOKEN" else args.getD 1 "") ∧
      (rest = [] → Getenv env "GITHUB_TOKEN" ≠ "") := by
  obtain ⟨p1, p2, a0, r, -, -, hargs, htok, hres⟩ := Init_success githubDefaultURL env p args h
  refine ⟨a0, r, hargs, ?_, ?_, htok⟩
  · rw [hres, (Init_baseURL_frame githubDefaultURL _ _).2.1]
  · rw [hres, (Init_baseURL_frame githubDefaultURL _ _).2.2.1]

/-- After a successful `Init`, appID and installationID are the facade's prior
values overwritten by the parsed values of the variables that are set. -/
theorem Init_success_ids (githubDefaultURL : String) (env : Env) (p : GithubProvider)
    (args : List String) (h : (Init githubDefaultURL env p args).2 = .nil) :
    (env "GITHUB_APP_ID" = none → (Init githubDefaultURL env p args).1.appID = p.appID) ∧
    (∀ v n, env "GITHUB_APP_ID" = some v → ParseInt v = .ok n →
      (Init githubDefaultURL env p args).1.appID = n) ∧
    (env "GITHUB_APP_INSTALLATION_ID" = none →
      (Init githubDefaultURL env p args).1.installationID = p.installationID) ∧
    (∀ v n, env "GITHUB_APP_INSTALLATION_ID" = some v → ParseInt v = .ok n →
      (Init githubDefaultURL env p args).1.installationID = n) := by
  obtain ⟨p1, p2, a0, r, h1, h2, -, -, -⟩ := Init_success githubDefaultURL env p args h
  obtain ⟨e1, e2, -⟩ := Init_of_blocks_ids githubDefaultURL env p p1 p2 args h1 h2
  rw [e1, e2]
  have ha : p2.appID = p1.appID := by
    rcases Init_installationID_cases env p1 with ⟨-, e⟩ | ⟨v, n, -, -, e⟩ | ⟨v, ne, -, -, e⟩ <;>
      rw [e] at h2 <;> cases h2 <;> rfl
  have hi : p1.installationID = p.installationID := by
    rcases Init_appID_cases env p with ⟨-, e⟩ | ⟨v, n, -, -, e⟩ | ⟨v, ne, -, -, e⟩ <;>
      rw [e] at h1 <;> cases h1 <;> rfl
  refine ⟨?_, ?_, ?_, ?_⟩
  · intro hv
    rw [Init_appID_none env p hv] at h1
    cases h1; exact ha
  · intro v n hv hp
    rw [Init_appID_ok env p v n hv hp] at h1
    cases h1; exact ha
  · intro hv
    rw [Init_installationID_none env p1 hv] at h2
    cases h2; exact hi
  · intro v n hv hp
    rw [Init_installationID_ok env p1 v n hv hp] at h2
    cases h2; rfl

theorem unescapeNewlines_ne_nil (l : List Char) (h : l ≠ []) : unescapeNewlines l ≠ [] := by
  induction l using unescapeNewlines.induct with
  | case1 rest _ => simp [unescapeNewlines]
  | case2 c rest hne _ =>
    rw [unescapeNewlines]
    · simp
    · exact hne
  | case3 => exact absurd rfl h

theorem Replace_escaped_newline_ne_empty (s : String) (h : s ≠ "") :
    Replace s "\\n" "\n" ≠ "" := by
  rw [Replace_escaped_newline]
  intro e
  have e2 := congrArg String.data e
  have hs : s.data ≠ [] := by
    intro hd
    apply h
    cases s
    simp only at hd
    rw [hd]
  exact unescapeNewlines_ne_nil s.data hs e2

/-- C12: when the app-ID and installation-ID values parse to non-zero integers
and the PEM value is non-empty, then after every successful `Init` (any args,
any prior facade) `GetConfig` returns the app-auth shape whose id,
installation_id and pem_file are the resolved appID, installationID and pem,
whatever token and baseURL are; the emitted object has the keys owner and
app_auth only, no token and no base_url. -/
theorem GetConfig_app_auth_wins (githubDefaultURL : String) (env : Env) (p : GithubProvider)
    (args : List String) (a i s : String) (n m : Int)
    (ha : env "GITHUB_APP_ID" = some a) (hn : ParseInt a = .ok n) (hn0 : n ≠ 0)
    (hi : env "GITHUB_APP_INSTALLATION_ID" = some i) (hm : ParseInt i = .ok m) (hm0 : m ≠ 0)
    (hs : env "GITHUB_APP_PEM_FILE" = some s) (hs0 : s ≠ "")
    (h : (Init githubDefaultURL env p args).2 = .nil) :
    GetConfig (Init githubDefaultURL env p args).1 =
      appAuthShape (Init githubDefaultURL env p args).1.owner n m (Replace s "\\n" "\n") ∧
    (Init githubDefaultURL env p args).1.appID = n ∧
    (Init githubDefaultURL env p args).1.installationID = m ∧
    (Init githubDefaultURL env p args).1.pem = Replace s "\\n" "\n" ∧
    (GetConfig (Init githubDefaultURL env p args).1).keys = ["owner", "app_auth"] ∧
    (GetConfig (Init githubDefaultURL env p args).1).attr "token" = none ∧
    (GetConfig (Init githubDefaultURL env p args).1).attr "base_url" = none := by
  obtain ⟨-, e1, -, e2⟩ := Init_success_ids githubDefaultURL env p args h
  have e1 := e1 a n ha hn
  have e2 := e2 i m hi hm
  have e3 : (Init githubDefaultURL env p args).1.pem = Replace s "\\n" "\n" := by
    rw [Init_success_pem githubDefaultURL env p args h, hs]
  have hc : (Init githubDefaultURL env p args).1.appID ≠ 0 ∧
      (Init githubDefaultURL env p args).1.installationID ≠ 0 ∧
      (Init githubDefaultURL env p args).1.pem ≠ "" := by
    rw [e1, e2, e3]
    exact ⟨hn0, hm0, Replace_escaped_newline_ne_empty s hs0⟩
  have hg : GetConfig (Init githubDefaultURL env p args).1 =
      appAuthShape (Init githubDefaultURL env p args).1.owner n m (Replace s "\\n" "\n") := by
    unfold GetConfig
    rw [if_pos hc, e1, e2, e3]
    rfl
  rw [hg]
  exact ⟨rfl, e1, e2, e3, rfl, rfl, rfl⟩

/-- The values 1, 2 and "x" with a positional token, an environment token and a
base URL: the app-auth shape is emitted. -/
theorem GetConfig_app_auth_wins_witness :
    GetConfig (Init "https://api.github.com/"
        (envOf [("GITHUB_APP_ID", "1"), ("GITHUB_APP_INSTALLATION_ID", "2"),
          ("GITHUB_APP_PEM_FILE", "x"), ("GITHUB_TOKEN", "envtok")])
        GithubProvider.fresh ["acme", "tok123", "https://ghe.example/"]).1 =
      appAuthShape "acme" 1 2 "x" :=
  (GetConfig_app_auth_wins "https://api.github.com/"
    (envOf [("GITHUB_APP_ID", "1"), ("GITHUB_APP_INSTALLATION_ID", "2"),
      ("GITHUB_APP_PEM_FILE", "x"), ("GITHUB_TOKEN", "envtok")])
    GithubProvider.fresh ["acme", "tok123", "https://ghe.example/"] "1" "2" "x" 1 2
    (by decide) rfl (by decide) (by decide) rfl (by decide) (by decide) (by decide)
    (by decide)).1

/-- C13: for a fresh facade, two-element args `[o, t]` and an environment in
which none of the three app variables is set, `Init` succeeds and `GetConfig`
then returns exactly the token shape with owner `o`, token `t` and an empty
base_url. -/
theorem GetConfig_token_only (githubDefaultURL : String) (env : Env) (o t : String)
    (hA : env "GITHUB_APP_ID" = none) (hI : env "GITHUB_APP_INSTALLATION_ID" = none)
    (hP : env "GITHUB_APP_PEM_FILE" = none) :
    (Init githubDefaultURL env GithubProvider.fresh [o, t]).2 = .nil ∧
    GetConfig (Init githubDefaultURL env GithubProvider.fresh [o, t]).1 = tokenShape o t "" := by
  have h1 := Init_appID_none env GithubProvider.fresh hA
  have h2 := Init_installationID_none env GithubProvider.fresh hI
  have hp : Init.pem env GithubProvider.fresh = GithubProvider.fresh := by
    simp only [Init.pem, LookupEnv, hP]
  have hl : ¬ [o, t].length < 2 := by simp
  have hb : ∀ q, Init.baseURL githubDefaultURL [o, t] q = q := by
    intro q; simp [Init.baseURL]
  have e : Init githubDefaultURL env GithubProvider.fresh [o, t] =
      ({ GithubProvider.fresh with owner := o, token := t }, .nil) := by
    rw [Init_of_blocks githubDefaultURL env _ _ _ [o, t] h1 h2]
    simp only [if_neg hl, hb, hp]
    rfl
  rw [e]
  refine ⟨rfl, ?_⟩
  simp [GetConfig, tokenShape, GithubProvider.fresh]

/-- Args `["acme", "tok123"]` give owner "acme", token "tok123", base_url "". -/
theorem GetConfig_token_only_witness :
    (Init "https://api.github.com/" (envOf []) GithubProvider.fresh ["acme", "tok123"]).2 = .nil ∧
    GetConfig (Init "https://api.github.com/" (envOf []) GithubProvider.fresh
        ["acme", "tok123"]).1 =
      .ObjectVal [("owner", .StringVal "acme"), ("token", .StringVal "tok123"),
        ("base_url", .StringVal "")] :=
  GetConfig_token_only "https://api.github.com/" (envOf []) "acme" "tok123" rfl rfl rfl

/-- C14 fails as stated: with no variable set, `Init(["acme", ""])` on a fresh
facade succeeds with an empty token and appID 0, so neither token mode nor app
mode is active. -/
theorem Init_invariant_fails :
    (Init "https://api.github.com/" (envOf []) GithubProvider.fresh ["acme", ""]).2 = .nil ∧
    (Init "https://api.github.com/" (envOf []) GithubProvider.fresh ["acme", ""]).1.token = "" ∧
    (Init "https://api.github.com/" (envOf []) GithubProvider.fresh ["acme", ""]).1.appID = 0 ∧
    ¬ ((Init "https://api.github.com/" (envOf []) GithubProvider.fresh
          ["acme", ""]).1.token ≠ "" ∨
       (0 < (Init "https://api.github.com/" (envOf []) GithubProvider.fresh
          ["acme", ""]).1.appID ∧
        0 < (Init "https://api.github.com/" (envOf []) GithubProvider.fresh
          ["acme", ""]).1.installationID ∧
        (Init "https://api.github.com/" (envOf []) GithubProvider.fresh
          ["acme", ""]).1.pem ≠ "")) := by
  decide

/-- C14 as amended: for a fresh facade and args/environment on which `Init`
succeeds, the resolved token is non-empty unless `Init` was given at least two
arguments with `args[1]` the empty string, and then the token is empty (with two
or more arguments the token is `args[1]`); and app mode (appID > 0,
installationID > 0, pem non-empty) is active exactly when the environment sets
the app-ID and the installation-ID to positive integers and the PEM variable to
a non-empty value. -/
theorem Init_credentials_modes (githubDefaultURL : String) (env : Env) (args : List String)
    (h : (Init githubDefaultURL env GithubProvider.fresh args).2 = .nil) :
    ((Init githubDefaultURL env GithubProvider.fresh args).1.token ≠ "" ∨
      (2 ≤ args.length ∧ args.getD 1 "" = "" ∧
        (Init githubDefaultURL env GithubProvider.fresh args).1.token = "")) ∧
    ((0 < (Init githubDefaultURL env GithubProvider.fresh args).1.appID ∧
      0 < (Init githubDefaultURL env GithubProvider.fresh args).1.installationID ∧
      (Init githubDefaultURL env GithubProvider.fresh args).1.pem ≠ "") ↔
     ((∃ a n, env "GITHUB_APP_ID" = some a ∧ ParseInt a = .ok n ∧ 0 < n) ∧
      (∃ i m, env "GITHUB_APP_INSTALLATION_ID" = some i ∧ ParseInt i = .ok m ∧ 0 < m) ∧
      (∃ s, env "GITHUB_APP_PEM_FILE" = some s ∧ s ≠ ""))) ∧
    (2 ≤ args.length →
      (Init githubDefaultURL env GithubProvider.fresh args).1.token = args.getD 1 "") := by
  have hC : 2 ≤ args.length →
      (Init githubDefaultURL env GithubProvider.fresh args).1.token = args.getD 1 "" := by
    obtain ⟨a0, rest, hargs, -, htok, -⟩ :=
      Init_success_owner_token githubDefaultURL env GithubProvider.fresh args h
    intro hl
    rw [htok]
    cases rest with
    | nil => rw [hargs] at hl; simp at hl
    | cons a1 r =>
      have hc : ¬ (a1 :: r) = [] := by simp
      rw [if_neg hc]
  refine ⟨?_, ?_, hC⟩
  · obtain ⟨a0, rest, hargs, -, htok, hne⟩ :=
      Init_success_owner_token githubDefaultURL env GithubProvider.fresh args h
    rw [htok]
    cases rest with
    | nil => left; rw [if_pos rfl]; exact hne rfl
    | cons a1 r =>
      have hc : ¬ (a1 :: r) = [] := by simp
      rw [if_neg hc]
      by_cases he : args.getD 1 "" = ""
      · right; exact ⟨by rw [hargs]; simp, he, he⟩
      · left; exact he
  · obtain ⟨hA0, hA1, hI0, hI1⟩ := Init_success_ids githubDefaultURL env GithubProvider.fresh args h
    obtain ⟨p1, p2, -, -, h1, h2, -, -, -⟩ :=
      Init_success githubDefaultURL env GithubProvider.fresh args h
    have hpem := Init_success_pem githubDefaultURL env GithubProvider.fresh args h
    -- the three variables, each absent or set
    have cA : (0 < (Init githubDefaultURL env GithubProvider.fresh args).1.appID) ↔
        ∃ a n, env "GITHUB_APP_ID" = some a ∧ ParseInt a = .ok n ∧ 0 < n := by
      rcases Init_appID_cases env GithubProvider.fresh with
        ⟨hv, -⟩ | ⟨v, n, hv, hp, -⟩ | ⟨v, ne, hv, hp, e⟩
      · rw [hA0 hv, hv]
        constructor
        · intro hh; exact absurd hh (by decide)
        · rintro ⟨a, n, ha, -⟩; cases ha
      · rw [hA1 v n hv hp]
        constructor
        · intro hh; exact ⟨v, n, hv, hp, hh⟩
        · rintro ⟨a, k, ha, hk, hpos⟩
          rw [hv] at ha; cases ha
          rw [hp] at hk; cases hk
          exact hpos
      · rw [e] at h1; cases h1
    have cI : (0 < (Init githubDefaultURL env GithubProvider.fresh args).1.installationID) ↔
        ∃ i m, env "GITHUB_APP_INSTALLATION_ID" = some i ∧ ParseInt i = .ok m ∧ 0 < m := by
      rcases Init_installationID_cases env p1 with
        ⟨hv, -⟩ | ⟨v, n, hv, hp, -⟩ | ⟨v, ne, hv, hp, e⟩
      · rw [hI0 hv, hv]
        constructor
        · intro hh; exact absurd hh (by decide)
        · rintro ⟨a, n, ha, -⟩; cases ha
      · rw [hI1 v n hv hp]
        constructor
        · intro hh; exact ⟨v, n, hv, hp, hh⟩
        · rintro ⟨a, k, ha, hk, hpos⟩
          rw [hv] at ha; cases ha
          rw [hp] at hk; cases hk
          exact hpos
      · rw [e] at h2; cases h2
    have cP : ((Init githubDefaultURL env GithubProvider.fresh args).1.pem ≠ "") ↔
        ∃ s, env "GITHUB_APP_PEM_FILE" = some s ∧ s ≠ "" := by
      rw [hpem]
      cases hv : env "GITHUB_APP_PEM_FILE" with
      | none =>
        constructor
        · intro hh; exact absurd rfl hh
        · rintro ⟨s, hs, -⟩; cases hs
      | some s =>
        simp only
        constructor
        · intro hh
          refine ⟨s, rfl, ?_⟩
          intro hs
          apply hh
          rw [hs]
          decide
        · rintro ⟨s2, hs, hne⟩
          cases hs
          exact Replace_escaped_newline_ne_empty s hne
    rw [cA, cI, cP]

/-- One argument and an environment token: token mode is active. -/
theorem Init_credentials_modes_witness :
    (Init "https://api.github.com/" (envOf [("GITHUB_TOKEN", "tok123")]) GithubProvider.fresh
        ["acme"]).1.token = "tok123" ∧
    ((Init "https://api.github.com/" (envOf [("GITHUB_TOKEN", "tok123")]) GithubProvider.fresh
        ["acme"]).1.token ≠ "" ∨
      (2 ≤ ["acme"].length ∧ ["acme"].getD 1 "" = "" ∧
        (Init "https://api.github.com/" (envOf [("GITHUB_TOKEN", "tok123")])
          GithubProvider.fresh ["acme"]).1.token = "")) :=
  ⟨by decide,
   (Init_credentials_modes "https://api.github.com/" (envOf [("GITHUB_TOKEN", "tok123")])
      ["acme"] (by decide)).1⟩

theorem GetConfig_attr_owner (p : GithubProvider) :
    (GetConfig p).attr "owner" = some (.StringVal p.owner) := by
  unfold GetConfig
  split <;> rfl

/-- C15 fails as stated: `Init(["", "tok123"])` succeeds and the resolved owner
is the empty string. -/
theorem Init_owner_empty :
    (Init "https://api.github.com/" (envOf []) GithubProvider.fresh ["", "tok123"]).2 = .nil ∧
    (Init "https://api.github.com/" (envOf []) GithubProvider.fresh ["", "tok123"]).1.owner = "" := by
  decide

/-- C15 as amended: on every args and environment on which `Init` succeeds, args
is non-empty and the resolved owner equals `args[0]` (which `Init` does not
require to be non-empty); the same value is the owner attribute of `GetConfig`'s
result, in both shapes, and the owner of `GetProviderData`'s
`{provider: {github: {owner}}}`. -/
theorem Init_owner_resolved (githubDefaultURL : String) (env : Env) (p : GithubProvider)
    (args : List String) (h : (Init githubDefaultURL env p args).2 = .nil) :
    ∃ args0 rest, args = args0 :: rest ∧
      (Init githubDefaultURL env p args).1.owner = args0 ∧
      (GetConfig (Init githubDefaultURL env p args).1).attr "owner" = some (.StringVal args0) ∧
      (∀ arg, GetProviderData (Init githubDefaultURL env p args).1 arg =
        [("provider", .map [("github", .map [("owner", .str args0)])])]) := by
  obtain ⟨a0, rest, hargs, ho, -, -⟩ := Init_success_owner_token githubDefaultURL env p args h
  refine ⟨a0, rest, hargs, ho, ?_, ?_⟩
  · rw [GetConfig_attr_owner, ho]
  · intro arg
    simp only [GetProviderData, ho]

/-- Args `["acme", "tok123"]`: owner "acme" in the facade and in both outputs. -/
theorem Init_owner_resolved_witness :
    (Init "https://api.github.com/" (envOf []) GithubProvider.fresh ["acme", "tok123"]).1.owner =
      "acme" ∧
    (∃ args0 rest, ["acme", "tok123"] = args0 :: rest ∧
      (Init "https://api.github.com/" (envOf []) GithubProvider.fresh
        ["acme", "tok123"]).1.owner = args0 ∧
      (GetConfig (Init "https://api.github.com/" (envOf []) GithubProvider.fresh
        ["acme", "tok123"]).1).attr "owner" = some (.StringVal args0) ∧
      (∀ arg, GetProviderData (Init "https://api.github.com/" (envOf []) GithubProvider.fresh
        ["acme", "tok123"]).1 arg =
        [("provider", .map [("github", .map [("owner", .str args0)])])])) :=
  ⟨by decide,
   Init_owner_resolved "https://api.github.com/" (envOf []) GithubProvider.fresh
     ["acme", "tok123"] (by decide)⟩

/-- C16: for a registry name `n` and a flag `v`, calling `InitService(n, v)` a
second time gives the same facade (same generator variant, injected name,
verbose flag, provider name, args bag and credential fields) and the same
outcome as calling it once; the result does not depend on the handle bound
before, if any; and the credential fields are those before the call. -/
theorem InitService_idempotent (p : GithubProvider) (n : String) (v : Bool)
    (h : n ∈ registryNames) :
    InitService (InitService p n v).1 n v = InitService p n v ∧
    (∀ handle, InitService { p with Service := handle } n v = InitService p n v) ∧
    (InitService p n v).1.credentials = p.credentials := by
  obtain ⟨g, hg⟩ := lookup_registry_some p n h
  have hl : ∀ q : GithubProvider, (GetSupportedService q).lookup n = some (Generator.new g) :=
    fun _ => hg
  refine ⟨?_, ?_, ?_⟩
  · simp only [InitService, hl]
    rfl
  · intro handle
    simp only [InitService, hl]
    rfl
  · simp only [InitService, hl]
    rfl

/-- Members bound twice, and members bound after teams, equal members bound once. -/
theorem InitService_idempotent_witness :
    InitService (InitService GithubProvider.fresh "members" true).1 "members" true =
      InitService GithubProvider.fresh "members" true ∧
    InitService (InitService GithubProvider.fresh "teams" false).1 "members" true =
      InitService GithubProvider.fresh "members" true :=
  ⟨(InitService_idempotent GithubProvider.fresh "members" true (by decide)).1,
   ((InitService_idempotent (InitService GithubProvider.fresh "teams" false).1 "members" true
      (by decide)).2.1 none).symm.trans (by decide)⟩

/-! ### Order of the checks of `Init`, and what `InitService` leaves alone -/

/-- C17: for every args (the empty sequence and a single argument without a
token variable included), a present app-ID value that is not a well-formed
integer makes `Init` return its integer-parse error with the facade untouched;
and with the app-ID value absent or well-formed, a present installation-ID value
that is not a well-formed integer makes `Init` return its integer-parse error
with owner, token and baseURL at their prior values. -/
theorem Init_fail_fast (githubDefaultURL : String) (env : Env) (p : GithubProvider)
    (args : List String) :
    (∀ v, env "GITHUB_APP_ID" = some v → decimalInt64? v = none →
      ∃ e, ParseInt v = .error e ∧
        Init githubDefaultURL env p args = (p, .err (.numError e))) ∧
    (∀ v, absentOrWellFormed env "GITHUB_APP_ID" = true →
      env "GITHUB_APP_INSTALLATION_ID" = some v → decimalInt64? v = none →
      ∃ e, ParseInt v = .error e ∧
        (Init githubDefaultURL env p args).2 = .err (.numError e) ∧
        (Init githubDefaultURL env p args).1.owner = p.owner ∧
        (Init githubDefaultURL env p args).1.token = p.token ∧
        (Init githubDefaultURL env p args).1.baseURL = p.baseURL) := by
  constructor
  · intro v hv hd
    obtain ⟨e, he⟩ := ParseInt_error_of_none v hd
    refine ⟨e, he, ?_⟩
    simp only [Init, Init_appID_error env p v e hv he]
  · intro v hA hv hd
    obtain ⟨e, he⟩ := ParseInt_error_of_none v hd
    refine ⟨e, he, ?_⟩
    rw [absentOrWellFormed_iff] at hA
    rcases hA with h | ⟨a, n, h, hn⟩
    · have h1 := Init_appID_none env p h
      have h2 := Init_installationID_error env p v e hv he
      have e1 : Init githubDefaultURL env p args = (p, .err (.numError e)) := by
        simp only [Init, h1, h2]
      rw [e1]
      exact ⟨rfl, rfl, rfl, rfl⟩
    · have h1 := Init_appID_ok env p a n h hn
      have h2 := Init_installationID_error env { p with appID := n } v e hv he
      have e1 : Init githubDefaultURL env p args =
          ({ p with appID := n }, .err (.numError e)) := by
        simp only [Init, h1, h2]
      rw [e1]
      exact ⟨rfl, rfl, rfl, rfl⟩

/-- A malformed app-ID with no arguments, and a malformed installation-ID with
one argument and no token variable: the parse error is returned, not the panic
and not "token requirement". -/
theorem Init_fail_fast_witness :
    (∃ e, Init "https://api.github.com/" (envOf [("GITHUB_APP_ID", "abc")])
        GithubProvider.fresh [] = (GithubProvider.fresh, .err (.numError e))) ∧
    (∃ e, (Init "https://api.github.com/"
        (envOf [("GITHUB_APP_ID", "7"), ("GITHUB_APP_INSTALLATION_ID", "1.5")])
        GithubProvider.fresh ["acme"]).2 = .err (.numError e) ∧
      (Init "https://api.github.com/"
        (envOf [("GITHUB_APP_ID", "7"), ("GITHUB_APP_INSTALLATION_ID", "1.5")])
        GithubProvider.fresh ["acme"]).1.owner = "") :=
  ⟨((Init_fail_fast "https://api.github.com/" (envOf [("GITHUB_APP_ID", "abc")])
      GithubProvider.fresh []).1 "abc" (by decide) (by decide)).imp fun _ h => h.2,
   ((Init_fail_fast "https://api.github.com/"
      (envOf [("GITHUB_APP_ID", "7"), ("GITHUB_APP_INSTALLATION_ID", "1.5")])
      GithubProvider.fresh ["acme"]).2 "1.5" (by decide) (by decide) (by decide)).imp
      fun _ h => ⟨h.2.1, h.2.2.1⟩⟩

/-- C18: whether `InitService` succeeds or fails, owner, token, baseURL, appID,
installationID and pem are unchanged, so `GetConfig` and `GetProviderData`
return the same value after the call as before; and a call of `GetConfig`,
`GetProviderData`, `GetName`, `GetSupportedService` or `GetResourceConnections`
leaves every field of the facade as it was. -/
theorem InitService_frame (p : GithubProvider) (name : String) (verbose : Bool) :
    (InitService p name verbose).1.owner = p.owner ∧
    (InitService p name verbose).1.token = p.token ∧
    (InitService p name verbose).1.baseURL = p.baseURL ∧
    (InitService p name verbose).1.appID = p.appID ∧
    (InitService p name verbose).1.installationID = p.installationID ∧
    (InitService p name verbose).1.pem = p.pem ∧
    GetConfig (InitService p name verbose).1 = GetConfig p ∧
    (∀ arg, GetProviderData (InitService p name verbose).1 arg = GetProviderData p arg) ∧
    (∀ g : Getter, g.facadeAfter p = p) := by
  have hg : ∀ g : Getter, g.facadeAfter p = p := by
    intro g; cases g <;> rfl
  unfold InitService
  cases (GetSupportedService p).lookup name with
  | none => exact ⟨rfl, rfl, rfl, rfl, rfl, rfl, rfl, fun _ => rfl, hg⟩
  | some service => exact ⟨rfl, rfl, rfl, rfl, rfl, rfl, rfl, fun _ => rfl, hg⟩

/-- After an `Init`, binding "members" or failing on "bogus" leaves the emitted
configuration and the owner as they were. -/
theorem InitService_frame_witness :
    GetConfig (InitService (Init "https://api.github.com/" (envOf []) GithubProvider.fresh
        ["acme", "tok123"]).1 "members" true).1 = tokenShape "acme" "tok123" "" ∧
    (InitService (Init "https://api.github.com/" (envOf []) GithubProvider.fresh
        ["acme", "tok123"]).1 "bogus" true).1.owner = "acme" :=
  ⟨(InitService_frame _ "members" true).2.2.2.2.2.2.1.trans rfl,
   (InitService_frame _ "bogus" true).1.trans (by decide)⟩

/-- C19: for single-element args `[owner]` and an environment whose app-ID and
installation-ID values parse to non-zero integers and whose PEM value is
non-empty while the token variable is unset, `Init` fails with "token
requirement"; yet `GetConfig` on the facade it leaves selects the app-auth shape
with the resolved values, which has no token attribute. -/
theorem Init_token_demanded_with_app_auth (githubDefaultURL : String) (env : Env)
    (p : GithubProvider) (owner a i s : String) (n m : Int)
    (ha : env "GITHUB_APP_ID" = some a) (hn : ParseInt a = .ok n) (hn0 : n ≠ 0)
    (hi : env "GITHUB_APP_INSTALLATION_ID" = some i) (hm : ParseInt i = .ok m) (hm0 : m ≠ 0)
    (hs : env "GITHUB_APP_PEM_FILE" = some s) (hs0 : s ≠ "")
    (ht : env "GITHUB_TOKEN" = none) :
    (Init githubDefaultURL env p [owner]).2 = .err (.errorString "token requirement") ∧
    GetConfig (Init githubDefaultURL env p [owner]).1 =
      appAuthShape owner n m (Replace s "\\n" "\n") ∧
    (GetConfig (Init githubDefaultURL env p [owner]).1).attr "token" = none := by
  have h1 := Init_appID_ok env p a n ha hn
  have h2 := Init_installationID_ok env { p with appID := n } i m hi hm
  have hl : [owner].length < 2 := by simp
  have hg : Getenv env "GITHUB_TOKEN" = "" := (Getenv_eq_empty_iff env _).2 (Or.inl ht)
  have e : Init githubDefaultURL env p [owner] =
      ({ p with appID := n, installationID := m, pem := Replace s "\\n" "\n", owner := owner },
        .err (.errorString "token requirement")) := by
    rw [Init_of_blocks githubDefaultURL env p _ _ [owner] h1 h2]
    simp only [if_pos hl, if_pos hg, Init.pem, LookupEnv, hs]
  have hc : n ≠ 0 ∧ m ≠ 0 ∧ Replace s "\\n" "\n" ≠ "" :=
    ⟨hn0, hm0, Replace_escaped_newline_ne_empty s hs0⟩
  have hG : GetConfig
      { p with appID := n, installationID := m, pem := Replace s "\\n" "\n", owner := owner } =
      appAuthShape owner n m (Replace s "\\n" "\n") := by
    unfold GetConfig
    rw [if_pos hc]
    rfl
  rw [e]
  refine ⟨rfl, hG, ?_⟩
  show (GetConfig _).attr "token" = none
  rw [hG]
  rfl

/-- App environment 1, 2, "x" and no token: "token requirement", app-auth shape. -/
theorem Init_token_demanded_with_app_auth_witness :
    (Init "https://api.github.com/"
        (envOf [("GITHUB_APP_ID", "1"), ("GITHUB_APP_INSTALLATION_ID", "2"),
          ("GITHUB_APP_PEM_FILE", "x")])
        GithubProvider.fresh ["acme"]).2 = .err (.errorString "token requirement") ∧
    GetConfig (Init "https://api.github.com/"
        (envOf [("GITHUB_APP_ID", "1"), ("GITHUB_APP_INSTALLATION_ID", "2"),
          ("GITHUB_APP_PEM_FILE", "x")])
        GithubProvider.fresh ["acme"]).1 = appAuthShape "acme" 1 2 "x" :=
  have h := Init_token_demanded_with_app_auth "https://api.github.com/"
    (envOf [("GITHUB_APP_ID", "1"), ("GITHUB_APP_INSTALLATION_ID", "2"),
      ("GITHUB_APP_PEM_FILE", "x")])
    GithubProvider.fresh "acme" "1" "2" "x" 1 2
    (by decide) rfl (by decide) (by decide) rfl (by decide) (by decide) (by decide) (by decide)
  ⟨h.1, h.2.1⟩

/-- C20: for single-element args and an environment whose integer values are
absent or well-formed, `Init` fails with "token requirement" if and only if the
token variable is unset or set to the empty string; whenever `Init` succeeds
with a single argument the resolved token is non-empty; and with the two
arguments `[owner, ""]` `Init` succeeds with an empty token. -/
theorem Init_token_requirement_iff (githubDefaultURL : String) (env : Env)
    (p : GithubProvider) (owner : String) :
    (absentOrWellFormed env "GITHUB_APP_ID" = true →
      absentOrWellFormed env "GITHUB_APP_INSTALLATION_ID" = true →
      ((Init githubDefaultURL env p [owner]).2 = .err (.errorString "token requirement") ↔
        (env "GITHUB_TOKEN" = none ∨ env "GITHUB_TOKEN" = some ""))) ∧
    ((Init githubDefaultURL env p [owner]).2 = .nil →
      (Init githubDefaultURL env p [owner]).1.token ≠ "") ∧
    (absentOrWellFormed env "GITHUB_APP_ID" = true →
      absentOrWellFormed env "GITHUB_APP_INSTALLATION_ID" = true →
      (Init githubDefaultURL env p [owner, ""]).2 = .nil ∧
      (Init githubDefaultURL env p [owner, ""]).1.token = "") := by
  refine ⟨?_, ?_, ?_⟩
  · intro hApp hInst
    obtain ⟨p1, p2, h1, h2⟩ := Init_blocks_ok env p hApp hInst
    rw [Init_of_blocks githubDefaultURL env p p1 p2 [owner] h1 h2, ← Getenv_eq_empty_iff]
    have hl : [owner].length < 2 := by simp
    simp only [if_pos hl]
    by_cases hg : Getenv env "GITHUB_TOKEN" = ""
    · rw [if_pos hg]; exact ⟨fun _ => hg, fun _ => rfl⟩
    · rw [if_neg hg]
      constructor
      · intro hh; cases hh
      · intro hh; exact absurd hh hg
  · intro h
    obtain ⟨a0, rest, hargs, -, htok, hne⟩ :=
      Init_success_owner_token githubDefaultURL env p [owner] h
    cases hargs
    rw [htok, if_pos rfl]
    exact hne rfl
  · intro hApp hInst
    obtain ⟨p1, p2, h1, h2⟩ := Init_blocks_ok env p hApp hInst
    rw [Init_of_blocks githubDefaultURL env p p1 p2 [owner, ""] h1 h2]
    have hl : ¬ [owner, ""].length < 2 := by simp
    simp only [if_neg hl]
    refine ⟨trivial, ?_⟩
    rw [(Init_baseURL_frame githubDefaultURL _ _).2.2.1]
    rfl

/-- A token variable set to the empty string fails like an unset one with one
argument, and is not looked at with two. -/
theorem Init_token_requirement_iff_witness :
    (Init "https://api.github.com/" (envOf [("GITHUB_TOKEN", "")]) GithubProvider.fresh
        ["acme"]).2 = .err (.errorString "token requirement") ∧
    (Init "https://api.github.com/" (envOf []) GithubProvider.fresh
        ["acme"]).2 = .err (.errorString "token requirement") ∧
    (Init "https://api.github.com/" (envOf [("GITHUB_TOKEN", "")]) GithubProvider.fresh
        ["acme", ""]).2 = .nil ∧
    (Init "https://api.github.com/" (envOf [("GITHUB_TOKEN", "")]) GithubProvider.fresh
        ["acme", ""]).1.token = "" :=
  ⟨((Init_token_requirement_iff "https://api.github.com/" (envOf [("GITHUB_TOKEN", "")])
      GithubProvider.fresh "acme").1 (by decide) (by decide)).2 (Or.inr (by decide)),
   ((Init_token_requirement_iff "https://api.github.com/" (envOf [])
      GithubProvider.fresh "acme").1 (by decide) (by decide)).2 (Or.inl (by decide)),
   (Init_token_requirement_iff "https://api.github.com/" (envOf [("GITHUB_TOKEN", "")])
      GithubProvider.fresh "acme").2.2 (by decide) (by decide)⟩

end Github
